import Mathlib

/-!
Verification of the cache-aside coordination layer of the places-server
repository (src/directions.js, src/index.js, src/places.js,
src/unnamed/part_000 .. part_003).

The JavaScript source is shallowly embedded: JS numbers are modelled as
exact rationals (`ℚ`) except inside the two trigonometric distance
formulas, which live in `ℝ`; redis is modelled as an explicit
`String → Option _` store passed in an environment record; every
`await`ed effect of a run is recorded in an ordered event trace.  The
string produced when a JS number is interpolated into a template literal
is modelled by `ratStr`, exact shortest-decimal printing for the
terminating decimals that actually reach the key builders.
-/

attribute [local semireducible] Rat.mul Rat.add Rat.sub Rat.inv Rat.ofScientific

/-! ### Decimal printing of JS numbers interpolated into cache keys -/

/-- One decimal digit rendered as a character, as JS number printing does. -/
def digChar : ℕ → Char
  | 0 => '0' | 1 => '1' | 2 => '2' | 3 => '3' | 4 => '4'
  | 5 => '5' | 6 => '6' | 7 => '7' | 8 => '8' | 9 => '9'
  | _ => '*'

/-- Inverse of `digChar` on decimal digits. -/
def charDig (c : Char) : ℕ := c.toNat - 48

/-- Base-10 digit characters of `n`, most significant first; `fuel`
bounds the recursion and any `fuel ≥ n` yields the digits of `n`
(`n = 0` prints as the empty list here; `natStr` special-cases it). -/
def digsAux : ℕ → ℕ → List Char
  | _, 0 => []
  | 0, _ + 1 => []
  | fuel + 1, n + 1 => digsAux fuel ((n + 1) / 10) ++ [digChar ((n + 1) % 10)]

/-- The base-10 digit characters of a natural number, most significant first. -/
def natDigs (n : ℕ) : List Char := digsAux n n

/-- A natural number printed the way a JS template literal prints it. -/
def natStr (n : ℕ) : List Char := if n = 0 then ['0'] else natDigs n

/-- Recover a natural number from its digit characters, most significant
first (helper for injectivity of the printing functions). -/
def valNat (l : List Char) : ℕ := l.foldl (fun a c => 10 * a + charDig c) 0

/-- The number of fractional decimal digits JS prints for a value whose
reduced denominator `d` divides 1000: the least `k` with `d ∣ 10^k`. -/
def fracExp (d : ℕ) : ℕ :=
  if d ∣ 1 then 0 else if d ∣ 10 then 1 else if d ∣ 100 then 2 else 3

/-- The fractional part `m` (with `m < 10^k`) printed as exactly `k`
digit characters, zero-padded on the left. -/
def fracChars (k m : ℕ) : List Char :=
  List.replicate (k - (natDigs m).length) '0' ++ natDigs m

/-- A JS number interpolated into a template literal (`${x}`): exact
shortest-decimal printing.  It is exact for every value whose reduced
denominator divides 1000 — the only values the source interpolates into
cache keys (outputs of `roundCoord`, integer radii, integer route
distances).  Other rationals fall into an unreachable `num/den` branch. -/
def ratStr (q : ℚ) : String :=
  let k := fracExp q.den
  if q.den ∣ 10 ^ k then
    let N := q.num.natAbs * (10 ^ k / q.den)
    let sign : List Char := if q.num < 0 then ['-'] else []
    if k = 0 then ⟨sign ++ natStr q.num.natAbs⟩
    else ⟨sign ++ natStr (N / 10 ^ k) ++ '.' :: fracChars k (N % 10 ^ k)⟩
  else ⟨(toString q.num).data ++ '/' :: (toString q.den).data⟩

/-! ### Coordinate normalization and cache keys -/

/-- `roundCoord` from src/directions.js, src/places.js and
src/unnamed/part_003 (identical in all three files):
`Math.floor(value * 1000) / 1000`. -/
def roundCoord (value : ℚ) : ℚ := (⌊value * 1000⌋ : ℚ) / 1000

/-- `makeCacheKey` from src/unnamed/part_003:
`places:v5:${lat}:${lng}:${radius}:${mode}` where the mode segment is
`grocery` when `groceryMode === 'true' || groceryMode === true` and
`normal` otherwise.  The `groceryMode` request parameter arrives from
the HTTP layer as a string or `undefined`, modelled as `Option String`. -/
def makeCacheKey (lat lng radius : ℚ) (groceryMode : Option String) : String :=
  let mode := if groceryMode = some "true" then "grocery" else "normal"
  "places:v5:" ++ ratStr lat ++ ":" ++ ratStr lng ++ ":" ++ ratStr radius ++ ":" ++ mode

/-- `makeCacheKey` from src/directions.js:
`directions:${oLat}:${oLng}:${dLat}:${dLng}`. -/
def makeCacheKeyDirections (oLat oLng dLat dLng : ℚ) : String :=
  "directions:" ++ ratStr oLat ++ ":" ++ ratStr oLng ++ ":" ++ ratStr dLat ++
    ":" ++ ratStr dLng

/-- `makeCacheKey` from src/places.js (first revision) and
src/unnamed/part_000: `places:${lat}:${lng}:${radius}:${type}`. -/
def makeCacheKeyV1 (lat lng radius : ℚ) (ty : String) : String :=
  "places:" ++ ratStr lat ++ ":" ++ ratStr lng ++ ":" ++ ratStr radius ++ ":" ++ ty

/-! ### Event traces and data model -/

/-- One awaited effect of a request, in program order: a redis `get`, the
`SET NX` lock attempt, one poll of the result cache while waiting for the
lock, an upstream Google call (nearby search / directions / reverse
geocode), a redis `setEx`, or the lock `del`. -/
inductive Ev where
  | cacheGet (key : String) (hit : Bool)
  | lockAcquire (key : String) (ok : Bool)
  | poll (i : ℕ) (hit : Bool)
  | upstreamPlaces (lat lng radius : ℚ) (ty : Option String)
  | upstreamDirections
  | geocode (lat lng : ℚ)
  | cacheSet (key : String) (ttl : ℕ)
  | lockRelease (key : String)
  deriving DecidableEq

/-- A raw result item of the Google nearby-search response
(`response.data.results[i]`), with exactly the fields the source reads;
optional fields that JS may find `undefined` are `Option`s. -/
structure RawPlace where
  place_id : String
  name : Option String
  types : Option (List String)
  vicinity : Option String
  formatted_address : Option String
  locLat : ℚ
  locLng : ℚ
  rating : Option ℚ
  deriving DecidableEq

/-- One entry pushed by `fetchGeocodingFallback`: `{ name: "", address }`. -/
structure GeoResult where
  name : String
  address : String
  deriving DecidableEq

/-- A place item as returned to the caller.  `place_id` is `none` for
geocoding-fallback items, whose object literal has no `place_id` key. -/
structure OutPlace where
  place_id : Option String
  name : String
  address : String
  lat : ℚ
  lng : ℚ
  rating : Option ℚ
  deriving DecidableEq

/-- JS `String.prototype.includes`: substring containment. -/
def strContains (s pat : String) : Bool :=
  (List.range (s.data.length + 1)).any fun i =>
    (s.data.drop i).take pat.data.length == pat.data

/-- Character-list core of JS `String.prototype.startsWith`. -/
def strStartsL : List Char → List Char → Bool
  | _, [] => true
  | [], _ :: _ => false
  | c :: cs, p :: ps => c == p && strStartsL cs ps

/-- JS `String.prototype.startsWith`. -/
def strStarts (s pre : String) : Bool := strStartsL s.data pre.data

/-- JS `toLowerCase` on one character (ASCII range, which covers every
name constant the source compares against). -/
def lowerChar (c : Char) : Char :=
  if 65 ≤ c.toNat ∧ c.toNat ≤ 90 then Char.ofNat (c.toNat + 32) else c

/-- JS `String.prototype.toLowerCase`. -/
def lowerStr (s : String) : String := ⟨s.data.map lowerChar⟩

/-! ### src/unnamed/part_003 constants and filter -/

/-- `foodTypes` from src/unnamed/part_003. -/
def foodTypes : List String :=
  ["restaurant", "cafe", "food", "meal_delivery", "meal_takeaway", "bakery",
   "bar", "supermarket", "grocery_or_supermarket", "store", "shopping_mall",
   "convenience_store"]

/-- `majorRetailers` from src/unnamed/part_003. -/
def majorRetailers : List String :=
  ["walmart supercenter", "walmart neighborhood market", "target",
   "dollar general", "kroger", "publix", "whole foods", "trader joe",
   "aldi", "costco", "sam\x27s club", "cvs", "walgreens"]

/-- `blacklistKeywords` from src/unnamed/part_003. -/
def blacklistKeywords : List String :=
  ["pharmacy", "auto care", "vision center", "tire center", "optical"]

/-- The `isMajorRetailer` test of src/unnamed/part_003, applied to an
already-lowercased display name:
`majorRetailers.some(r => name === r || name.startsWith(r))`. -/
def isMajorName (name : String) : Bool :=
  majorRetailers.any fun r => name == r || strStarts name r

/-- `filterPlaces` from src/unnamed/part_003 (lines 156-179): drop
blacklisted names; in grocery mode keep only major retailers; in normal
mode keep food-typed places or major retailers. -/
def filterPlaces (grocery : Bool) (results : List RawPlace) : List RawPlace :=
  results.filter fun p =>
    let name := lowerStr (p.name.getD "")
    let isBlacklisted := blacklistKeywords.any fun keyword => strContains name keyword
    if isBlacklisted then false
    else
      let isMajorRetailer := isMajorName name
      if grocery then isMajorRetailer
      else (p.types.getD []).any (fun t => foodTypes.contains t) || isMajorRetailer

/-! ### Geocoding fallback (identical in places.js, part_000, part_003) -/

/-- The fixed 3x3 grid of micro-offsets probed by `fetchGeocodingFallback`. -/
def geoOffsets : List (ℚ × ℚ) :=
  [(0, 0), (1/10000, 0), (-1/10000, 0), (0, 1/10000), (0, -1/10000),
   (1/10000, 1/10000), (-1/10000, 1/10000), (1/10000, -1/10000),
   (-1/10000, -1/10000)]

/-- The body of `fetchGeocodingFallback`'s `for` loop: one reverse-geocode
call per remaining offset, pushing `{name:"", address}` on a non-empty
response, breaking once 10 results are accumulated.  `geocode` maps a
probed point to the `formatted_address` of the first result, `none` when
`body?.results` is missing or empty. -/
def geoLoop (geocode : ℚ → ℚ → Option String) (lat lng : ℚ) :
    List (ℚ × ℚ) → List GeoResult → List GeoResult × List Ev
  | [], acc => (acc, [])
  | (dLat, dLng) :: rest, acc =>
    let pLat := lat + dLat
    let pLng := lng + dLng
    let acc' : List GeoResult := match geocode pLat pLng with
      | some addr => acc ++ [⟨"", addr⟩]
      | none => acc
    if 10 ≤ acc'.length then (acc', [Ev.geocode pLat pLng])
    else
      let r := geoLoop geocode lat lng rest acc'
      (r.1, Ev.geocode pLat pLng :: r.2)

/-- `fetchGeocodingFallback(lat, lng)` from src/unnamed/part_003 (also
byte-identical in src/places.js and src/unnamed/part_000). -/
def fetchGeocodingFallback (geocode : ℚ → ℚ → Option String) (lat lng : ℚ) :
    List GeoResult × List Ev :=
  geoLoop geocode lat lng geoOffsets []

/-! ### Great-circle distances -/

/-- JS `Math.atan2`, by its standard case definition. -/
noncomputable def atan2 (y x : ℝ) : ℝ :=
  if 0 < x then Real.arctan (y / x)
  else if x < 0 then
    (if 0 ≤ y then Real.arctan (y / x) + Real.pi else Real.arctan (y / x) - Real.pi)
  else
    (if 0 < y then Real.pi / 2 else if y < 0 then -(Real.pi / 2) else 0)

/-- `calculateDistance` from src/unnamed/part_003 (also in places.js,
second revision): haversine distance in meters via `atan2`. -/
noncomputable def calculateDistance (lat1 lng1 lat2 lng2 : ℚ) : ℝ :=
  let R : ℝ := 6371000
  let phi1 := (lat1 : ℝ) * Real.pi / 180
  let phi2 := (lat2 : ℝ) * Real.pi / 180
  let dPhi := ((lat2 : ℝ) - (lat1 : ℝ)) * Real.pi / 180
  let dLam := ((lng2 : ℝ) - (lng1 : ℝ)) * Real.pi / 180
  let a := Real.sin (dPhi / 2) * Real.sin (dPhi / 2) +
    Real.cos phi1 * Real.cos phi2 * Real.sin (dLam / 2) * Real.sin (dLam / 2)
  let c := 2 * atan2 (Real.sqrt a) (Real.sqrt (1 - a))
  R * c

/-- `straightLineMiles` from src/directions.js: haversine distance in
miles via `asin`. -/
noncomputable def straightLineMiles (lat1 lng1 lat2 lng2 : ℚ) : ℝ :=
  let R : ℝ := 3958.8
  let dLat := ((lat2 : ℝ) - (lat1 : ℝ)) * Real.pi / 180
  let dLng := ((lng2 : ℝ) - (lng1 : ℝ)) * Real.pi / 180
  let a := Real.sin (dLat / 2) ^ 2 +
    Real.cos ((lat1 : ℝ) * Real.pi / 180) * Real.cos ((lat2 : ℝ) * Real.pi / 180) *
      Real.sin (dLng / 2) ^ 2
  2 * R * Real.arcsin (Real.sqrt a)

/-! ### Ranking (src/unnamed/part_003, success path) -/

/-- An element of `placesWithDistance` in src/unnamed/part_003: the
mapped result item carrying the ranking helpers `distance` and
`isMajorRetailer` that are stripped before returning. -/
structure PlaceD where
  place_id : String
  name : String
  address : String
  lat : ℚ
  lng : ℚ
  rating : Option ℚ
  distance : ℝ
  isMajorRetailer : Bool

/-- The `filteredPlaces.map(...)` step of src/unnamed/part_003 building
one `placesWithDistance` entry from a raw result. -/
noncomputable def mkPlaceD (rLat rLng : ℚ) (p : RawPlace) : PlaceD where
  place_id := p.place_id
  name := p.name.getD ""
  address := p.vicinity.getD (p.formatted_address.getD "")
  lat := p.locLat
  lng := p.locLng
  rating := p.rating
  distance := calculateDistance rLat rLng p.locLat p.locLng
  isMajorRetailer := isMajorName (lowerStr (p.name.getD ""))

/-- The ordering realised by the sort comparator of src/unnamed/part_003:
major retailers come first; within the same retailer class, ascending
`distance`. -/
def pdOrder (a b : PlaceD) : Prop :=
  (a.isMajorRetailer = true ∧ b.isMajorRetailer = false) ∨
    (a.isMajorRetailer = b.isMajorRetailer ∧ a.distance ≤ b.distance)

noncomputable instance : DecidableRel pdOrder := fun _ _ => Classical.dec _

instance : IsTotal PlaceD pdOrder where
  total a b := by
    rcases ha : a.isMajorRetailer with _ | _ <;> rcases hb : b.isMajorRetailer with _ | _ <;>
      rcases le_total a.distance b.distance with h | h <;>
        simp [pdOrder, ha, hb, h]

instance : IsTrans PlaceD pdOrder where
  trans a b c hab hbc := by
    rcases hab with ⟨ha, hb⟩ | ⟨hab, hd⟩ <;> rcases hbc with ⟨hb', hc⟩ | ⟨hbc, hd'⟩
    · exact Or.inl ⟨ha, hc⟩
    · exact Or.inl ⟨ha, hbc ▸ hb⟩
    · exact Or.inl ⟨hab ▸ hb', hc⟩
    · exact Or.inr ⟨hab.trans hbc, hd.trans hd'⟩

/-- The final `.map` of src/unnamed/part_003 dropping the ranking
helpers `distance` and `isMajorRetailer` before returning. -/
def stripD (p : PlaceD) : OutPlace where
  place_id := some p.place_id
  name := p.name
  address := p.address
  lat := p.lat
  lng := p.lng
  rating := p.rating

/-- The success-path post-processing of src/unnamed/part_003 (lines
230-274): map to `placesWithDistance`, sort (retailers first, then by
distance), take the first 10, strip the helper fields.  JS `Array.sort`
is modelled by stable insertion sort, which realises the ECMAScript
guarantee (a stable sorted permutation). -/
noncomputable def rankPlaces (rLat rLng : ℚ) (filtered : List RawPlace) : List OutPlace :=
  ((List.insertionSort pdOrder (filtered.map (mkPlaceD rLat rLng))).take 10).map stripD

/-! ### getNearbyPlaces, src/unnamed/part_003 -/

/-- The run result of a `getNearbyPlaces` call: the value returned to
the caller, the ordered effect trace, and the `setEx` write performed
(key, ttl seconds, payload), if any.  The redis payload string is
`JSON.stringify` of the list and the cache-hit path returns
`JSON.parse` of it; the stringify/parse round trip is the identity on
these plain records, so the store is modelled as holding the parsed
list directly. -/
structure PlacesOut where
  result : List OutPlace
  evs : List Ev
  write : Option (String × ℕ × List OutPlace)
  deriving DecidableEq

/-- External collaborators of a part_003 `getNearbyPlaces` call: the
shared store, the nearby-search upstream (argument order: lat, lng,
radius; `none` models a thrown/failed axios call, `some l` a 2xx
response whose `results` array is `l` — a response with a missing
`results` field behaves as `some []`, the branch the source treats
identically), and the reverse-geocode upstream. -/
structure PlacesEnv where
  cache : String → Option (List OutPlace)
  upstream : ℚ → ℚ → ℚ → Option (List RawPlace)
  geocode : ℚ → ℚ → Option String

/-- Steps 3-4 of src/unnamed/part_003 `getNearbyPlaces` (lines 282-298):
if `places` is empty, fall back to geocoding reconstruction (items carry
the raw query coordinates), then `setEx` the final list with the given
TTL and return it. -/
def finishPlaces (geocode : ℚ → ℚ → Option String) (lat lng : ℚ) (key : String)
    (ttl : ℕ) (evs0 : List Ev) (places : List OutPlace) : PlacesOut :=
  if places.isEmpty then
    let g := fetchGeocodingFallback geocode lat lng
    let places2 := g.1.map fun p => ⟨none, p.name, p.address, lat, lng, none⟩
    ⟨places2, evs0 ++ g.2 ++ [Ev.cacheSet key ttl], some (key, ttl, places2)⟩
  else ⟨places, evs0 ++ [Ev.cacheSet key ttl], some (key, ttl, places)⟩

/-- `CACHE_TTL_SECONDS` of src/unnamed/part_003: 30 days. -/
def PLACES_TTL : ℕ := 2592000

/-- `getNearbyPlaces` from src/unnamed/part_003 (lines 91-299): cache
lookup; on a miss a staged nearby search at fixed radius 100 then — if
the *filtered* set is empty — radius 200; mode-dependent filtering;
ranking; geocoding fallback; unconditional `setEx`.  A thrown axios
error (upstream `none`) aborts the `try` block, leaving `places` empty. -/
noncomputable def getNearbyPlaces (env : PlacesEnv) (lat lng radius : ℚ)
    (groceryMode : Option String) : PlacesOut :=
  let rLat := roundCoord lat
  let rLng := roundCoord lng
  let cacheKey := makeCacheKey rLat rLng radius groceryMode
  match env.cache cacheKey with
  | some v => ⟨v, [Ev.cacheGet cacheKey true], none⟩
  | none =>
    let grocery := groceryMode == some "true"
    let evs1 := [Ev.cacheGet cacheKey false, Ev.upstreamPlaces rLat rLng 100 none]
    match env.upstream rLat rLng 100 with
    | none => finishPlaces env.geocode lat lng cacheKey PLACES_TTL evs1 []
    | some res1 =>
      let f1 := filterPlaces grocery res1
      if f1.isEmpty then
        let evs2 := evs1 ++ [Ev.upstreamPlaces rLat rLng 200 none]
        match env.upstream rLat rLng 200 with
        | none => finishPlaces env.geocode lat lng cacheKey PLACES_TTL evs2 []
        | some res2 =>
          let f2 := filterPlaces grocery res2
          if f2.isEmpty then finishPlaces env.geocode lat lng cacheKey PLACES_TTL evs2 []
          else finishPlaces env.geocode lat lng cacheKey PLACES_TTL evs2 (rankPlaces rLat rLng f2)
      else finishPlaces env.geocode lat lng cacheKey PLACES_TTL evs1 (rankPlaces rLat rLng f1)

/-- Apply a recorded `setEx` write to a places store. -/
def applyPlacesWrite (c : String → Option (List OutPlace)) :
    Option (String × ℕ × List OutPlace) → String → Option (List OutPlace)
  | none => c
  | some w => fun k => if k = w.1 then some w.2.2 else c k

/-! ### getNearbyPlaces, src/places.js first revision -/

/-- `foodTypes` from src/places.js, first revision (7 entries). -/
def foodTypesV1 : List String :=
  ["restaurant", "cafe", "food", "meal_delivery", "meal_takeaway", "bakery", "bar"]

/-- External collaborators of a first-revision places.js call; its
upstream takes lat, lng, radius and the optional `type` parameter. -/
structure PlacesEnvV1 where
  cache : String → Option (List OutPlace)
  upstream : ℚ → ℚ → ℚ → Option String → Option (List RawPlace)
  geocode : ℚ → ℚ → Option String

/-- The result mapping of src/places.js, first revision (lines 118-126). -/
def mkOutV1 (p : RawPlace) : OutPlace where
  place_id := some p.place_id
  name := p.name.getD ""
  address := p.vicinity.getD (p.formatted_address.getD "")
  lat := p.locLat
  lng := p.locLng
  rating := p.rating

/-- The filter/slice/map step of src/places.js first revision (lines
105-127): prefer food-typed results, fall back to the raw set when no
food-typed result exists, truncate to 10, map. -/
def processV1 (results : List RawPlace) : List OutPlace :=
  if results.isEmpty then []
  else
    let foodPlaces := results.filter fun p =>
      (p.types.getD []).any fun t => foodTypesV1.contains t
    let resultsToUse := if foodPlaces.isEmpty then results else foodPlaces
    (resultsToUse.take 10).map mkOutV1

/-- `CACHE_TTL_SECONDS` of src/places.js first revision: 6 hours. -/
def PLACES_TTL_V1 : ℕ := 21600

/-- `getNearbyPlaces` from src/places.js, first revision (lines 48-149):
stage 1 queries upstream with the caller's radius and `type`; if stage 1
returns a raw empty set, stage 2 retries without the type filter at
radius `max(radius, 200)`; there is no third stage.  A thrown axios
error aborts the `try` block, leaving `places` empty for the geocoding
fallback. -/
def getNearbyPlacesV1 (env : PlacesEnvV1) (lat lng radius : ℚ) (ty : String) : PlacesOut :=
  let rLat := roundCoord lat
  let rLng := roundCoord lng
  let cacheKey := makeCacheKeyV1 rLat rLng radius ty
  match env.cache cacheKey with
  | some v => ⟨v, [Ev.cacheGet cacheKey true], none⟩
  | none =>
    let evs1 := [Ev.cacheGet cacheKey false, Ev.upstreamPlaces rLat rLng radius (some ty)]
    match env.upstream rLat rLng radius (some ty) with
    | none => finishPlaces env.geocode lat lng cacheKey PLACES_TTL_V1 evs1 []
    | some res1 =>
      if res1.isEmpty then
        let evs2 := evs1 ++ [Ev.upstreamPlaces rLat rLng (max radius 200) none]
        match env.upstream rLat rLng (max radius 200) none with
        | none => finishPlaces env.geocode lat lng cacheKey PLACES_TTL_V1 evs2 []
        | some res2 => finishPlaces env.geocode lat lng cacheKey PLACES_TTL_V1 evs2 (processV1 res2)
      else finishPlaces env.geocode lat lng cacheKey PLACES_TTL_V1 evs1 (processV1 res1)

/-! ### getDirectionsDistance, src/directions.js -/

/-- External collaborators of a `getDirectionsDistance` call.  The redis
entry holds the distance's decimal string (`miles.toString()`), read
back via `Number(cached)`; since `Number` of a JS number's string is
that number again, the store is modelled as holding the number.
`lockFree` is the outcome of the single `SET NX` attempt; `polls i` is
the cache content observed by the i-th wait-loop poll; `upstream` is
`none` for a failed axios call and `some routeMeters` for a 2xx
response listing the `legs[0].distance.value` of each route. -/
structure DirEnv where
  cache : String → Option ℝ
  lockFree : Bool
  polls : ℕ → Option ℝ
  upstream : Option (List ℚ)

/-- The value and effects of one `getDirectionsDistance` call: the
returned `{ distance_miles, source }` object, the effect trace, and the
`setEx` write performed, if any. -/
structure DirOut where
  distance_miles : ℝ
  source : String
  evs : List Ev
  write : Option (String × ℕ × ℝ)

/-- `LOCK_MAX_WAIT_MS / LOCK_WAIT_MS` of src/directions.js: the wait
loop sleeps 200 ms per iteration up to a 5000 ms bound, so at most 25
polls of the result cache occur. -/
def DIR_MAX_POLLS : ℕ := 25

/-- `CACHE_TTL_SECONDS` of src/directions.js: 24 hours. -/
def DIR_TTL : ℕ := 86400

/-- The lock-wait loop of src/directions.js (lines 99-111): sleep, poll
the result cache, return the cached value on a hit, give up after the
wait bound. -/
def pollPhase (polls : ℕ → Option ℝ) : ℕ → ℕ → Option ℝ × List Ev
  | 0, _ => (none, [])
  | fuel + 1, i =>
    match polls i with
    | some v => (some v, [Ev.poll i true])
    | none =>
      let r := pollPhase polls fuel (i + 1)
      (r.1, Ev.poll i false :: r.2)

/-- Step 3 of src/directions.js (lines 118-167): call the directions
upstream; on a route, convert meters to miles, cache and release; on
any failure (axios error or empty `routes`), fall back to
`straightLineMiles` of the rounded points, cache and release. -/
noncomputable def dirFetch (env : DirEnv) (cacheKey lockKey : String) (evs0 : List Ev)
    (oLat oLng dLat dLng : ℚ) : DirOut :=
  match env.upstream with
  | some (meters :: _) =>
    let miles : ℝ := (meters : ℝ) * (621371 / 1000000000 : ℝ)
    ⟨miles, "google",
      evs0 ++ [Ev.upstreamDirections, Ev.cacheSet cacheKey DIR_TTL, Ev.lockRelease lockKey],
      some (cacheKey, DIR_TTL, miles)⟩
  | _ =>
    let fallback := straightLineMiles oLat oLng dLat dLng
    ⟨fallback, "fallback",
      evs0 ++ [Ev.upstreamDirections, Ev.cacheSet cacheKey DIR_TTL, Ev.lockRelease lockKey],
      some (cacheKey, DIR_TTL, fallback)⟩

/-- `getDirectionsDistance` from src/directions.js (lines 64-168):
round, build the key, check the cache; on a miss attempt the stampede
lock; the winner fetches; a loser polls the result cache up to the wait
bound and, if still unfilled, proceeds to a redundant fetch. -/
noncomputable def getDirectionsDistance (env : DirEnv)
    (originLat originLng destLat destLng : ℚ) : DirOut :=
  let oLat := roundCoord originLat
  let oLng := roundCoord originLng
  let dLat := roundCoord destLat
  let dLng := roundCoord destLng
  let cacheKey := makeCacheKeyDirections oLat oLng dLat dLng
  let lockKey := "lock:" ++ cacheKey
  match env.cache cacheKey with
  | some v => ⟨v, "cache", [Ev.cacheGet cacheKey true], none⟩
  | none =>
    let evs0 := [Ev.cacheGet cacheKey false, Ev.lockAcquire lockKey env.lockFree]
    if env.lockFree then dirFetch env cacheKey lockKey evs0 oLat oLng dLat dLng
    else
      let p := pollPhase env.polls DIR_MAX_POLLS 0
      match p.1 with
      | some v => ⟨v, "cache", evs0 ++ p.2, none⟩
      | none => dirFetch env cacheKey lockKey (evs0 ++ p.2) oLat oLng dLat dLng

/-- Apply a recorded `setEx` write to a directions store. -/
noncomputable def applyDirWrite (c : String → Option ℝ) :
    Option (String × ℕ × ℝ) → String → Option ℝ
  | none => c
  | some w => fun k => if k = w.1 then some w.2.2 else c k

/-! ### HTTP boundary: JS number coercion and the endpoint guards -/

/-- A JS number as the HTTP layer sees it after `Number(...)`: either a
numeric value or `NaN`. -/
inductive JSNum where
  | nan
  | num (q : ℚ)
  deriving DecidableEq

/-- JS truthiness of a number: `0` and `NaN` are falsy. -/
def truthyNum : JSNum → Bool
  | .nan => false
  | .num q => q != 0

/-- JS truthiness of a possibly-absent string query parameter:
`undefined` and `""` are falsy. -/
def truthyStr : Option String → Bool
  | none => false
  | some s => s != ""

/-- Split a character list at its first `'.'`, if any. -/
def splitAtDot : List Char → Option (List Char × List Char)
  | [] => none
  | '.' :: rest => some ([], rest)
  | c :: rest => (splitAtDot rest).map fun p => (c :: p.1, p.2)

/-- JS `Number(string)` on the input space the endpoints receive: the
empty string is 0; an optional sign followed by a plain decimal literal
(`"33"`, `"-84.388"`, `".5"`, `"1."`) is its value; anything else is
`NaN`.  (Whitespace trimming, exponents and hex literals are outside
the modelled input space.) -/
def jsNumber (s : String) : JSNum :=
  match s.data with
  | [] => .num 0
  | cs =>
    let signed : ℚ × List Char :=
      match cs with
      | '-' :: r => (-1, r)
      | '+' :: r => (1, r)
      | r => (1, r)
    match splitAtDot signed.2 with
    | none =>
      if signed.2 ≠ [] ∧ signed.2.all Char.isDigit then
        .num (signed.1 * valNat signed.2)
      else .nan
    | some (ip, fp) =>
      if (ip ≠ [] ∨ fp ≠ []) ∧ ip.all Char.isDigit ∧ fp.all Char.isDigit ∧ '.' ∉ fp then
        .num (signed.1 * (valNat ip + (valNat fp : ℚ) / 10 ^ fp.length))
      else .nan

/-- JS `Number` applied to a possibly-absent query parameter:
`Number(undefined)` is `NaN`. -/
def jsNumberOpt : Option String → JSNum
  | none => .nan
  | some s => jsNumber s

/-- The validation outcome of an endpoint handler: an immediate 400
missing-parameter response, or fall-through into the cache/lock/
upstream flow. -/
inductive HandlerResp where
  | bad400
  | proceed
  deriving DecidableEq

/-- The `/places` guard of src/index.js (both revisions concatenated in
that file): `lat` and `lng` are destructured from `req.query` as raw
strings and presence is tested with `if (!lat || !lng)` *before* any
numeric conversion. -/
def placesEndpointIndex (lat lng : Option String) : HandlerResp :=
  if !truthyStr lat || !truthyStr lng then .bad400 else .proceed

/-- The `/places` guard of src/unnamed/part_002: `lat` and `lng` are
converted with `Number(...)` first and `if (!lat || !lng)` tests the
numbers. -/
def placesEndpointP2 (lat lng : Option String) : HandlerResp :=
  if !truthyNum (jsNumberOpt lat) || !truthyNum (jsNumberOpt lng) then .bad400
  else .proceed

/-- The `/directions` guard of src/index.js (first revision, lines
54-68) and src/unnamed/part_002: all four coordinates are converted
with `Number(...)` and tested with `if (!originLat || ...)`. -/
def directionsEndpoint (originLat originLng destLat destLng : Option String) : HandlerResp :=
  if !truthyNum (jsNumberOpt originLat) || !truthyNum (jsNumberOpt originLng) ||
      !truthyNum (jsNumberOpt destLat) || !truthyNum (jsNumberOpt destLng) then .bad400
  else .proceed

/-! ### Statement-level predicates and concrete scenarios -/

/-- Is this event an upstream fetch (nearby search or directions)? -/
def isUpstreamEv : Ev → Bool
  | .upstreamPlaces _ _ _ _ => true
  | .upstreamDirections => true
  | _ => false

/-- Is this event a stampede-lock acquisition attempt? -/
def isLockEv : Ev → Bool
  | .lockAcquire _ _ => true
  | _ => false

/-- Is this event a reverse-geocode call? -/
def isGeoEv : Ev → Bool
  | .geocode _ _ => true
  | _ => false

/-- Is this event one poll of the result cache in the lock-wait loop? -/
def isPollEv : Ev → Bool
  | .poll _ _ => true
  | _ => false

/-- A trace with no upstream fetch of any kind. -/
def noUpstream (l : List Ev) : Prop := ∀ e ∈ l, isUpstreamEv e = false

/-- A raw candidate that carries a food category but is not an
allow-listed retailer (the candidate class of claim C6). -/
def foodOnlyNonRetailer (p : RawPlace) : Prop :=
  ((p.types.getD []).any fun t => foodTypes.contains t) = true ∧
    isMajorName (lowerStr (p.name.getD "")) = false

/-- The retailer classification recomputed from a returned item's name —
on items produced by the success path it coincides with the
`isMajorRetailer` ranking flag that was stripped. -/
def outMajor (o : OutPlace) : Bool := isMajorName (lowerStr o.name)

/-- The ranking distance recomputed from a returned item's coordinates —
on items produced by the success path it coincides with the stripped
`distance` field. -/
noncomputable def outDist (rLat rLng : ℚ) (o : OutPlace) : ℝ :=
  calculateDistance rLat rLng o.lat o.lng

/-- The order the part_003 comparator actually realises on returned
items: major retailers first, then ascending distance from the rounded
query origin. -/
def outOrd (rLat rLng : ℚ) (x y : OutPlace) : Prop :=
  (outMajor x = true ∧ outMajor y = false) ∨
    (outMajor x = outMajor y ∧ outDist rLat rLng x ≤ outDist rLat rLng y)

/-- A food-typed, non-retailer candidate at the origin. -/
def cafePlace : RawPlace :=
  ⟨"p1", some "Cafe One", some ["cafe"], some "1 Main St", none, 0, 0, some 4⟩

/-- An allow-listed retailer candidate 0.001 degrees north of the origin. -/
def targetPlace : RawPlace :=
  ⟨"p2", some "Target", some ["department_store"], some "2 Main St", none, 1/1000, 0, none⟩

/-- Cold cache; stage-1 nearby search returns the cafe and the Target
store; geocoding unused. -/
def rankEnv : PlacesEnv :=
  ⟨fun _ => none,
   fun _ _ r => if r = 100 then some [cafePlace, targetPlace] else some [],
   fun _ _ => none⟩

/-- Cold cache; both nearby-search stages return empty; reverse
geocoding returns nothing anywhere. -/
def coldPlacesEnv : PlacesEnv := ⟨fun _ => none, fun _ _ _ => some [], fun _ _ => none⟩

/-- Cold cache; stage 1 returns only the (food-typed, non-retailer)
cafe, stage 2 returns empty; every reverse-geocode probe succeeds. -/
def cafeOnlyEnv : PlacesEnv :=
  ⟨fun _ => none,
   fun _ _ r => if r = 100 then some [cafePlace] else some [],
   fun _ _ => some "123 Somewhere Ave"⟩

/-- Cold cache, free lock, upstream directions call always fails. -/
def coldFailDirEnv : DirEnv := ⟨fun _ => none, true, fun _ => none, none⟩

/-- Cold cache, free lock, upstream directions call returns an empty
`routes` array. -/
def coldEmptyRoutesDirEnv : DirEnv := ⟨fun _ => none, true, fun _ => none, some []⟩

/-- Cold cache, free lock, upstream directions call returns one route of
1000 meters. -/
def coldGoogleDirEnv : DirEnv := ⟨fun _ => none, true, fun _ => none, some [1000]⟩

/-- First-revision places.js stub of claim C5: empty whenever a `type`
filter is sent, non-empty once the type filter is dropped. -/
def v1StageEnv : PlacesEnvV1 :=
  ⟨fun _ => none,
   fun _ _ _ ty => match ty with | some _ => some [] | none => some [cafePlace],
   fun _ _ => none⟩

/-! ### Lemmas: geocoding fallback loop -/

/-- While the accumulated results cannot reach the cap, the loop makes
exactly one reverse-geocode call per offset, in order, and grows the
result list by at most one per offset. -/
theorem geoLoop_bound (g : ℚ → ℚ → Option String) (lat lng : ℚ) :
    ∀ (offs : List (ℚ × ℚ)) (acc : List GeoResult), acc.length + offs.length ≤ 10 →
      (geoLoop g lat lng offs acc).2 =
        offs.map (fun o => Ev.geocode (lat + o.1) (lng + o.2)) ∧
      (geoLoop g lat lng offs acc).1.length ≤ acc.length + offs.length := by
  intro offs
  induction offs with
  | nil => intro acc _; simp [geoLoop]
  | cons o rest ih =>
    obtain ⟨dLat, dLng⟩ := o
    intro acc h
    simp only [List.length_cons] at h
    cases hg : g (lat + dLat) (lng + dLng) with
    | none =>
      have hlt : ¬ 10 ≤ acc.length := by omega
      have := ih acc (by omega)
      simp only [geoLoop, hg, if_neg hlt]
      simpa using ⟨this.1, by omega⟩
    | some addr =>
      by_cases hten : 10 ≤ acc.length + 1
      · have hrest : rest = [] := by
          rcases rest with _ | ⟨r, rs⟩
          · rfl
          · simp only [List.length_cons] at h; omega
        subst hrest
        simp [geoLoop, hg, hten]
      · have := ih (acc ++ [⟨"", addr⟩]) (by simp; omega)
        simp only [geoLoop, hg, List.length_append, List.length_singleton, if_neg hten]
        simp only [List.length_append, List.length_singleton] at this
        simpa using ⟨this.1, by omega⟩

/-- Once 10 results have been accumulated, the loop stops: at most the
one call of the current iteration is made and no further offset is
probed. -/
theorem geoLoop_stop (g : ℚ → ℚ → Option String) (lat lng : ℚ)
    (offs : List (ℚ × ℚ)) (acc : List GeoResult) (h : 10 ≤ acc.length) :
    (geoLoop g lat lng offs acc).2.length ≤ 1 := by
  cases offs with
  | nil => simp [geoLoop]
  | cons o rest =>
    obtain ⟨dLat, dLng⟩ := o
    cases hg : g (lat + dLat) (lng + dLng) with
    | none => simp [geoLoop, hg, h]
    | some addr =>
      have h9 : 9 ≤ acc.length := by omega
      simp [geoLoop, hg, h9]

/-- C8: over the fixed 3x3 offset grid, the geocoding fallback performs
one reverse-geocode call per offset (9 calls, in grid order), collects
at most 10 named results, and the loop stops early once 10 results are
accumulated.  (With 9 offsets, each contributing at most one result,
the 10-result cap is unreachable, so the early-stop branch never fires
on the fixed grid; the last conjunct states it for the loop itself.) -/
theorem C8_geocoding_fallback_bound (g : ℚ → ℚ → Option String) (lat lng : ℚ) :
    (fetchGeocodingFallback g lat lng).2 =
      geoOffsets.map (fun o => Ev.geocode (lat + o.1) (lng + o.2)) ∧
    (fetchGeocodingFallback g lat lng).2.length = 9 ∧
    (fetchGeocodingFallback g lat lng).1.length ≤ 10 ∧
    (∀ (offs : List (ℚ × ℚ)) (acc : List GeoResult), 10 ≤ acc.length →
      (geoLoop g lat lng offs acc).2.length ≤ 1) := by
  have h := geoLoop_bound g lat lng geoOffsets [] (by simp [geoOffsets])
  have hlen : geoOffsets.length = 9 := by simp [geoOffsets]
  refine ⟨h.1, ?_, ?_, fun offs acc hacc => geoLoop_stop g lat lng offs acc hacc⟩
  · show (geoLoop g lat lng geoOffsets []).2.length = 9
    rw [h.1, List.length_map, hlen]
  · show (geoLoop g lat lng geoOffsets []).1.length ≤ 10
    have := h.2
    simp only [List.length_nil, hlen] at this
    omega

/-- Witness for C8 at a concrete stub and inputs. -/
theorem C8_geocoding_fallback_bound_witness :
    (fetchGeocodingFallback (fun _ _ => some "a") 0 0).1.length ≤ 10 ∧
    (geoLoop (fun _ _ => some "a") 0 0 [(0, 0)]
      (List.replicate 10 ⟨"", "x"⟩)).2.length ≤ 1 :=
  ⟨(C8_geocoding_fallback_bound (fun _ _ => some "a") 0 0).2.2.1,
   (C8_geocoding_fallback_bound (fun _ _ => some "a") 0 0).2.2.2 [(0, 0)] _ (by simp)⟩

/-! ### Lemmas: shape of getNearbyPlaces runs -/

/-- Both exits of the final fallback/cache step write exactly the
returned list under the given key and TTL. -/
theorem finishPlaces_write (g : ℚ → ℚ → Option String) (lat lng : ℚ) (key : String)
    (ttl : ℕ) (evs0 : List Ev) (places : List OutPlace) :
    (finishPlaces g lat lng key ttl evs0 places).write =
      some (key, ttl, (finishPlaces g lat lng key ttl evs0 places).result) := by
  unfold finishPlaces
  split <;> rfl

/-- A part_003 run that hits the cache returns the cached list with a
single `get` event and no write. -/
theorem getNearbyPlaces_hit (env : PlacesEnv) (lat lng radius : ℚ) (gm : Option String)
    (v : List OutPlace)
    (h : env.cache (makeCacheKey (roundCoord lat) (roundCoord lng) radius gm) = some v) :
    getNearbyPlaces env lat lng radius gm =
      ⟨v, [Ev.cacheGet (makeCacheKey (roundCoord lat) (roundCoord lng) radius gm) true],
        none⟩ := by
  unfold getNearbyPlaces
  dsimp only
  rw [h]

/-- A part_003 run that misses the cache always ends in the common
fallback/cache tail. -/
theorem getNearbyPlaces_miss_shape (env : PlacesEnv) (lat lng radius : ℚ)
    (gm : Option String)
    (h : env.cache (makeCacheKey (roundCoord lat) (roundCoord lng) radius gm) = none) :
    ∃ evs0 places, getNearbyPlaces env lat lng radius gm =
      finishPlaces env.geocode lat lng
        (makeCacheKey (roundCoord lat) (roundCoord lng) radius gm) PLACES_TTL evs0 places := by
  unfold getNearbyPlaces
  dsimp only
  rw [h]
  cases env.upstream (roundCoord lat) (roundCoord lng) 100 with
  | none => exact ⟨_, _, rfl⟩
  | some res1 =>
    dsimp only
    split
    · cases env.upstream (roundCoord lat) (roundCoord lng) 200 with
      | none => exact ⟨_, _, rfl⟩
      | some res2 =>
        dsimp only
        split
        · exact ⟨_, _, rfl⟩
        · exact ⟨_, _, rfl⟩
    · exact ⟨_, _, rfl⟩

/-- On a cache miss, the written payload is exactly the returned list,
under the request's key with the full 30-day TTL. -/
theorem getNearbyPlaces_miss_write (env : PlacesEnv) (lat lng radius : ℚ)
    (gm : Option String)
    (h : env.cache (makeCacheKey (roundCoord lat) (roundCoord lng) radius gm) = none) :
    (getNearbyPlaces env lat lng radius gm).write =
      some (makeCacheKey (roundCoord lat) (roundCoord lng) radius gm, PLACES_TTL,
        (getNearbyPlaces env lat lng radius gm).result) := by
  obtain ⟨evs0, places, hshape⟩ := getNearbyPlaces_miss_shape env lat lng radius gm h
  rw [hshape]
  exact finishPlaces_write _ _ _ _ _ _ _

/-- When every reverse-geocode probe comes back empty, the fallback loop
accumulates nothing. -/
theorem geoLoop_none (g : ℚ → ℚ → Option String) (hg : ∀ a b, g a b = none)
    (lat lng : ℚ) : ∀ (offs : List (ℚ × ℚ)) (acc : List GeoResult),
      (geoLoop g lat lng offs acc).1 = acc := by
  intro offs
  induction offs with
  | nil => intro acc; simp [geoLoop]
  | cons o rest ih =>
    intro acc
    obtain ⟨dLat, dLng⟩ := o
    simp only [geoLoop, hg (lat + dLat) (lng + dLng), ih acc]
    split <;> rfl

/-- C10: when both nearby-search stages return zero results and every
reverse-geocode probe is empty, the run returns `[]` and writes `[]`
into the cache under the query's key with the same full 30-day TTL used
for successful results; an identical query against the updated store
answers `[]` from cache with no upstream and no geocoding call. -/
theorem C10_negative_caching (env : PlacesEnv) (lat lng radius : ℚ) (gm : Option String)
    (hmiss : env.cache (makeCacheKey (roundCoord lat) (roundCoord lng) radius gm) = none)
    (h100 : env.upstream (roundCoord lat) (roundCoord lng) 100 = some [])
    (h200 : env.upstream (roundCoord lat) (roundCoord lng) 200 = some [])
    (hgeo : ∀ a b : ℚ, env.geocode a b = none) :
    (getNearbyPlaces env lat lng radius gm).result = [] ∧
    (getNearbyPlaces env lat lng radius gm).write =
      some (makeCacheKey (roundCoord lat) (roundCoord lng) radius gm, PLACES_TTL, []) ∧
    (getNearbyPlaces
        { env with cache :=
            applyPlacesWrite env.cache (getNearbyPlaces env lat lng radius gm).write }
        lat lng radius gm).result = [] ∧
    noUpstream (getNearbyPlaces
        { env with cache :=
            applyPlacesWrite env.cache (getNearbyPlaces env lat lng radius gm).write }
        lat lng radius gm).evs ∧
    (∀ e ∈ (getNearbyPlaces
        { env with cache :=
            applyPlacesWrite env.cache (getNearbyPlaces env lat lng radius gm).write }
        lat lng radius gm).evs, isGeoEv e = false) := by
  have hres : (getNearbyPlaces env lat lng radius gm).result = [] := by
    unfold getNearbyPlaces
    dsimp only
    rw [hmiss, h100]
    simp only [filterPlaces, List.filter_nil, List.isEmpty_nil, if_true]
    rw [h200]
    simp only [filterPlaces, List.filter_nil, List.isEmpty_nil, if_true]
    unfold finishPlaces
    simp only [List.isEmpty_nil, if_true, fetchGeocodingFallback,
      geoLoop_none env.geocode hgeo lat lng geoOffsets [], List.map_nil]
  have hw : (getNearbyPlaces env lat lng radius gm).write =
      some (makeCacheKey (roundCoord lat) (roundCoord lng) radius gm, PLACES_TTL, []) := by
    rw [getNearbyPlaces_miss_write env lat lng radius gm hmiss, hres]
  have hc : ({ env with
        cache := applyPlacesWrite env.cache
          (getNearbyPlaces env lat lng radius gm).write } : PlacesEnv).cache
      (makeCacheKey (roundCoord lat) (roundCoord lng) radius gm) = some [] := by
    rw [hw]
    simp [applyPlacesWrite]
  have h2 := getNearbyPlaces_hit _ lat lng radius gm [] hc
  rw [h2]
  refine ⟨hres, hw, rfl, ?_, ?_⟩
  · intro e he
    simp only [List.mem_singleton] at he
    subst he
    rfl
  · intro e he
    simp only [List.mem_singleton] at he
    subst he
    rfl

/-- Witness for C10 at a concrete environment and query. -/
theorem C10_negative_caching_witness :
    (getNearbyPlaces coldPlacesEnv (33749/1000) (-84388/1000) 200 none).result = [] ∧
    (getNearbyPlaces
        { coldPlacesEnv with
            cache := applyPlacesWrite coldPlacesEnv.cache
              (getNearbyPlaces coldPlacesEnv (33749/1000) (-84388/1000) 200 none).write }
        (33749/1000) (-84388/1000) 200 none).result = [] := by
  have h := C10_negative_caching coldPlacesEnv (33749/1000) (-84388/1000) 200 none
    rfl rfl rfl (fun _ _ => rfl)
  exact ⟨h.1, h.2.2.1⟩

/-! ### Lemmas: shape of getDirectionsDistance runs -/

/-- A directions run that hits the cache returns the cached value with
source marker `cache`, one `get` event and no write. -/
theorem getDirectionsDistance_hit (env : DirEnv) (a b c d : ℚ) (v : ℝ)
    (h : env.cache (makeCacheKeyDirections (roundCoord a) (roundCoord b)
        (roundCoord c) (roundCoord d)) = some v) :
    getDirectionsDistance env a b c d =
      ⟨v, "cache",
        [Ev.cacheGet (makeCacheKeyDirections (roundCoord a) (roundCoord b)
          (roundCoord c) (roundCoord d)) true], none⟩ := by
  unfold getDirectionsDistance
  dsimp only
  rw [h]

/-- Both exits of the fetch step write exactly the returned distance
under the given key with the 24-hour TTL. -/
theorem dirFetch_write (env : DirEnv) (ck lk : String) (evs0 : List Ev)
    (o1 o2 o3 o4 : ℚ) :
    (dirFetch env ck lk evs0 o1 o2 o3 o4).write =
      some (ck, DIR_TTL, (dirFetch env ck lk evs0 o1 o2 o3 o4).distance_miles) := by
  unfold dirFetch
  rcases env.upstream with _ | ⟨_ | ⟨m, l⟩⟩ <;> rfl

/-- A directions run that misses the cache and wins the lock goes
straight to the fetch step with the miss and acquire events recorded. -/
theorem getDirectionsDistance_miss_lock (env : DirEnv) (a b c d : ℚ)
    (hmiss : env.cache (makeCacheKeyDirections (roundCoord a) (roundCoord b)
        (roundCoord c) (roundCoord d)) = none)
    (hlock : env.lockFree = true) :
    getDirectionsDistance env a b c d =
      dirFetch env
        (makeCacheKeyDirections (roundCoord a) (roundCoord b) (roundCoord c) (roundCoord d))
        ("lock:" ++ makeCacheKeyDirections (roundCoord a) (roundCoord b) (roundCoord c)
          (roundCoord d))
        [Ev.cacheGet (makeCacheKeyDirections (roundCoord a) (roundCoord b) (roundCoord c)
          (roundCoord d)) false,
         Ev.lockAcquire ("lock:" ++ makeCacheKeyDirections (roundCoord a) (roundCoord b)
          (roundCoord c) (roundCoord d)) env.lockFree]
        (roundCoord a) (roundCoord b) (roundCoord c) (roundCoord d) := by
  unfold getDirectionsDistance
  dsimp only
  rw [hmiss, hlock]
  rw [if_pos rfl]

/-- C2, counterexample: the claim fails as stated for
`getDirectionsDistance`: after a first successful resolution via the
provider, the immediate repeat returns the same distance but a payload
whose `source` field is `"cache"` instead of `"google"`, so the repeat
payload is not byte-identical to the first call's result.  (No second
upstream call is issued, and the numeric distance is identical.) -/
theorem C2_cache_idempotence_cex :
    (getDirectionsDistance coldGoogleDirEnv 0 0 0 0).source = "google" ∧
    (getDirectionsDistance
        { coldGoogleDirEnv with
            cache := applyDirWrite coldGoogleDirEnv.cache
              (getDirectionsDistance coldGoogleDirEnv 0 0 0 0).write }
        0 0 0 0).source = "cache" ∧
    (getDirectionsDistance
        { coldGoogleDirEnv with
            cache := applyDirWrite coldGoogleDirEnv.cache
              (getDirectionsDistance coldGoogleDirEnv 0 0 0 0).write }
        0 0 0 0).source ≠ (getDirectionsDistance coldGoogleDirEnv 0 0 0 0).source ∧
    (getDirectionsDistance
        { coldGoogleDirEnv with
            cache := applyDirWrite coldGoogleDirEnv.cache
              (getDirectionsDistance coldGoogleDirEnv 0 0 0 0).write }
        0 0 0 0).distance_miles = (getDirectionsDistance coldGoogleDirEnv 0 0 0 0).distance_miles :=
  ⟨rfl, rfl, by decide, rfl⟩

/-- C2, amended: for `getNearbyPlaces` (part_003) the claim holds: an
immediate identical repeat after any first resolution from a cold cache
returns the same list (hence a byte-identical JSON payload) with no
second upstream or geocoding call.  For `getDirectionsDistance` the
repeat issues no second upstream call and returns the identical numeric
distance, but its `source` marker is `"cache"` rather than the first
call's marker. -/
theorem C2_cache_idempotence_amended :
    (∀ (env : PlacesEnv) (lat lng radius : ℚ) (gm : Option String),
      env.cache (makeCacheKey (roundCoord lat) (roundCoord lng) radius gm) = none →
      (getNearbyPlaces
          { env with cache :=
              applyPlacesWrite env.cache (getNearbyPlaces env lat lng radius gm).write }
          lat lng radius gm).result = (getNearbyPlaces env lat lng radius gm).result ∧
      noUpstream (getNearbyPlaces
          { env with cache :=
              applyPlacesWrite env.cache (getNearbyPlaces env lat lng radius gm).write }
          lat lng radius gm).evs ∧
      (∀ e ∈ (getNearbyPlaces
          { env with cache :=
              applyPlacesWrite env.cache (getNearbyPlaces env lat lng radius gm).write }
          lat lng radius gm).evs, isGeoEv e = false)) ∧
    (∀ (env : DirEnv) (a b c d : ℚ),
      env.cache (makeCacheKeyDirections (roundCoord a) (roundCoord b) (roundCoord c)
        (roundCoord d)) = none →
      env.lockFree = true →
      (getDirectionsDistance
          { env with cache :=
              applyDirWrite env.cache (getDirectionsDistance env a b c d).write }
          a b c d).distance_miles = (getDirectionsDistance env a b c d).distance_miles ∧
      (getDirectionsDistance
          { env with cache :=
              applyDirWrite env.cache (getDirectionsDistance env a b c d).write }
          a b c d).source = "cache" ∧
      noUpstream (getDirectionsDistance
          { env with cache :=
              applyDirWrite env.cache (getDirectionsDistance env a b c d).write }
          a b c d).evs) := by
  constructor
  · intro env lat lng radius gm hmiss
    have hw := getNearbyPlaces_miss_write env lat lng radius gm hmiss
    have hc : ({ env with
          cache := applyPlacesWrite env.cache
            (getNearbyPlaces env lat lng radius gm).write } : PlacesEnv).cache
        (makeCacheKey (roundCoord lat) (roundCoord lng) radius gm) =
        some (getNearbyPlaces env lat lng radius gm).result := by
      rw [hw]
      simp [applyPlacesWrite]
    have h2 := getNearbyPlaces_hit _ lat lng radius gm _ hc
    rw [h2]
    refine ⟨rfl, ?_, ?_⟩
    · intro e he
      simp only [List.mem_singleton] at he
      subst he
      rfl
    · intro e he
      simp only [List.mem_singleton] at he
      subst he
      rfl
  · intro env a b c d hmiss hlock
    have h1 := getDirectionsDistance_miss_lock env a b c d hmiss hlock
    have hw : (getDirectionsDistance env a b c d).write =
        some (makeCacheKeyDirections (roundCoord a) (roundCoord b) (roundCoord c)
          (roundCoord d), DIR_TTL, (getDirectionsDistance env a b c d).distance_miles) := by
      rw [h1]
      exact dirFetch_write env _ _ _ _ _ _ _
    have hc : ({ env with
          cache := applyDirWrite env.cache
            (getDirectionsDistance env a b c d).write } : DirEnv).cache
        (makeCacheKeyDirections (roundCoord a) (roundCoord b) (roundCoord c)
          (roundCoord d)) = some (getDirectionsDistance env a b c d).distance_miles := by
      rw [hw]
      simp [applyDirWrite]
    have h2 := getDirectionsDistance_hit _ a b c d _ hc
    rw [h2]
    refine ⟨rfl, rfl, ?_⟩
    intro e he
    simp only [List.mem_singleton] at he
    subst he
    rfl

/-- Witness for C2's amended theorem at concrete environments. -/
theorem C2_cache_idempotence_amended_witness :
    ((getNearbyPlaces
        { cafeOnlyEnv with
            cache := applyPlacesWrite cafeOnlyEnv.cache
              (getNearbyPlaces cafeOnlyEnv 0 0 200 none).write }
        0 0 200 none).result = (getNearbyPlaces cafeOnlyEnv 0 0 200 none).result) ∧
    ((getDirectionsDistance
        { coldFailDirEnv with
            cache := applyDirWrite coldFailDirEnv.cache
              (getDirectionsDistance coldFailDirEnv 1 2 3 4).write }
        1 2 3 4).distance_miles = (getDirectionsDistance coldFailDirEnv 1 2 3 4).distance_miles) :=
  ⟨(C2_cache_idempotence_amended.1 cafeOnlyEnv 0 0 200 none rfl).1,
   (C2_cache_idempotence_amended.2 coldFailDirEnv 1 2 3 4 rfl rfl).1⟩

/-! ### Lemmas: the geometric fallback distance -/

/-- The haversine fallback is never negative. -/
theorem straightLineMiles_nonneg (a b c d : ℚ) : 0 ≤ straightLineMiles a b c d := by
  unfold straightLineMiles
  have h1 : (0:ℝ) ≤ 2 * 3958.8 := by norm_num
  exact mul_nonneg h1 (Real.arcsin_nonneg.mpr (Real.sqrt_nonneg _))

/-- The haversine fallback between coincident points is zero. -/
theorem straightLineMiles_zero : straightLineMiles 0 0 0 0 = 0 := by
  unfold straightLineMiles
  norm_num

/-- When the upstream errors or returns no route, the fetch step falls
back to the haversine distance of its (rounded) arguments. -/
theorem dirFetch_fail (env : DirEnv) (ck lk : String) (evs0 : List Ev)
    (o1 o2 o3 o4 : ℚ) (hup : env.upstream = none ∨ env.upstream = some []) :
    dirFetch env ck lk evs0 o1 o2 o3 o4 =
      ⟨straightLineMiles o1 o2 o3 o4, "fallback",
        evs0 ++ [Ev.upstreamDirections, Ev.cacheSet ck DIR_TTL, Ev.lockRelease lk],
        some (ck, DIR_TTL, straightLineMiles o1 o2 o3 o4)⟩ := by
  rcases hup with h | h <;> unfold dirFetch <;> rw [h]

/-- C4, amended: with an upstream stub that always errors (failed call
or empty `routes`), a cold cache and a free lock, `getDirectionsDistance`
raises no error and returns a non-negative distance equal to the
great-circle (haversine) distance between the two *rounded* input
points, with source marker `fallback`. -/
theorem C4_fallback_totality_amended (env : DirEnv) (a b c d : ℚ)
    (hup : env.upstream = none ∨ env.upstream = some [])
    (hmiss : env.cache (makeCacheKeyDirections (roundCoord a) (roundCoord b)
      (roundCoord c) (roundCoord d)) = none)
    (hlock : env.lockFree = true) :
    (getDirectionsDistance env a b c d).source = "fallback" ∧
    (getDirectionsDistance env a b c d).distance_miles =
      straightLineMiles (roundCoord a) (roundCoord b) (roundCoord c) (roundCoord d) ∧
    0 ≤ (getDirectionsDistance env a b c d).distance_miles := by
  rw [getDirectionsDistance_miss_lock env a b c d hmiss hlock,
    dirFetch_fail env _ _ _ _ _ _ _ hup]
  exact ⟨rfl, rfl, straightLineMiles_nonneg _ _ _ _⟩

/-- Witness for C4's amended theorem at a concrete environment. -/
theorem C4_fallback_totality_amended_witness :
    (getDirectionsDistance coldFailDirEnv (337495/10000) (-843885/10000) 0 0).source =
      "fallback" ∧
    (getDirectionsDistance coldEmptyRoutesDirEnv 0 0 0 0).source = "fallback" :=
  ⟨(C4_fallback_totality_amended coldFailDirEnv (337495/10000) (-843885/10000) 0 0
      (Or.inl rfl) rfl rfl).1,
   (C4_fallback_totality_amended coldEmptyRoutesDirEnv 0 0 0 0
      (Or.inr rfl) rfl rfl).1⟩

/-- The haversine fallback between the raw origin (0.0005, 0) and the
raw destination (0, 0) is strictly positive. -/
theorem straightLineMiles_pos_cex : 0 < straightLineMiles (1/2000) 0 0 0 := by
  unfold straightLineMiles
  have hpi := Real.pi_pos
  have hs : 0 < Real.sin (Real.pi / 720000) := by
    apply Real.sin_pos_of_pos_of_lt_pi
    · positivity
    · calc Real.pi / 720000 < Real.pi / 1 := by
            apply div_lt_div_of_pos_left hpi <;> norm_num
        _ = Real.pi := by ring
  push_cast
  norm_num
  have h1 : (-(1 / 2000 * Real.pi) / 180 / 2 : ℝ) = -(Real.pi / 720000) := by ring
  rw [h1, Real.sin_neg, neg_sq]
  exact pow_pos hs 2

/-- C4, counterexample: for the input pair origin (0.0005, 0),
destination (0, 0) with an always-failing upstream, the returned
distance is computed from the *rounded* points and equals 0, whereas
the great-circle distance between the two raw input points is strictly
positive — so the returned value does not equal the great-circle
distance between the two input points. -/
theorem C4_fallback_totality_cex :
    (getDirectionsDistance coldFailDirEnv (1/2000) 0 0 0).distance_miles = 0 ∧
    0 < straightLineMiles (1/2000) 0 0 0 ∧
    (getDirectionsDistance coldFailDirEnv (1/2000) 0 0 0).distance_miles ≠
      straightLineMiles (1/2000) 0 0 0 := by
  have hr : roundCoord (1/2000) = 0 := by decide
  have h0 : roundCoord 0 = 0 := by decide
  have hd : (getDirectionsDistance coldFailDirEnv (1/2000) 0 0 0).distance_miles = 0 := by
    rw [getDirectionsDistance_miss_lock coldFailDirEnv (1/2000) 0 0 0 rfl rfl,
      dirFetch_fail coldFailDirEnv _ _ _ _ _ _ _ (Or.inl rfl)]
    show straightLineMiles (roundCoord (1/2000)) (roundCoord 0) (roundCoord 0)
      (roundCoord 0) = 0
    rw [hr, h0]
    exact straightLineMiles_zero
  refine ⟨hd, straightLineMiles_pos_cex, ?_⟩
  rw [hd]
  exact straightLineMiles_pos_cex.ne

/-! ### Lemmas: stampede lock discipline -/

/-- The fetch step's trace is its prefix followed by the upstream call,
the cache write and the lock release, on both the success and the
fallback branch. -/
theorem dirFetch_evs (env : DirEnv) (ck lk : String) (evs0 : List Ev)
    (o1 o2 o3 o4 : ℚ) :
    (dirFetch env ck lk evs0 o1 o2 o3 o4).evs =
      evs0 ++ [Ev.upstreamDirections, Ev.cacheSet ck DIR_TTL, Ev.lockRelease lk] := by
  unfold dirFetch
  rcases env.upstream with _ | ⟨_ | ⟨m, l⟩⟩ <;> rfl

/-- A directions run that misses the cache and loses the lock enters
the poll loop, and either returns a polled cache value or proceeds to
the redundant fetch. -/
theorem getDirectionsDistance_miss_nolock (env : DirEnv) (a b c d : ℚ)
    (hmiss : env.cache (makeCacheKeyDirections (roundCoord a) (roundCoord b)
        (roundCoord c) (roundCoord d)) = none)
    (hlock : env.lockFree = false) :
    getDirectionsDistance env a b c d =
      (match (pollPhase env.polls DIR_MAX_POLLS 0).1 with
       | some v =>
          ⟨v, "cache",
            [Ev.cacheGet (makeCacheKeyDirections (roundCoord a) (roundCoord b)
              (roundCoord c) (roundCoord d)) false,
             Ev.lockAcquire ("lock:" ++ makeCacheKeyDirections (roundCoord a) (roundCoord b)
              (roundCoord c) (roundCoord d)) false] ++
              (pollPhase env.polls DIR_MAX_POLLS 0).2, none⟩
       | none =>
          dirFetch env
            (makeCacheKeyDirections (roundCoord a) (roundCoord b) (roundCoord c)
              (roundCoord d))
            ("lock:" ++ makeCacheKeyDirections (roundCoord a) (roundCoord b) (roundCoord c)
              (roundCoord d))
            ([Ev.cacheGet (makeCacheKeyDirections (roundCoord a) (roundCoord b)
              (roundCoord c) (roundCoord d)) false,
              Ev.lockAcquire ("lock:" ++ makeCacheKeyDirections (roundCoord a) (roundCoord b)
              (roundCoord c) (roundCoord d)) false] ++
              (pollPhase env.polls DIR_MAX_POLLS 0).2)
            (roundCoord a) (roundCoord b) (roundCoord c) (roundCoord d)) := by
  unfold getDirectionsDistance
  dsimp only
  rw [hmiss, hlock]
  rw [if_neg (by simp)]

/-- Every event of the poll loop is a poll, and the loop makes at most
`fuel` polls. -/
theorem pollPhase_evs (polls : ℕ → Option ℝ) :
    ∀ (fuel i : ℕ), (∀ e ∈ (pollPhase polls fuel i).2, isPollEv e = true) ∧
      (pollPhase polls fuel i).2.length ≤ fuel := by
  intro fuel
  induction fuel with
  | zero => intro i; simp [pollPhase]
  | succ n ih =>
    intro i
    cases hp : polls i with
    | some v =>
      simp only [pollPhase, hp]
      constructor
      · intro e he
        simp only [List.mem_singleton] at he
        subst he
        rfl
      · simp
    | none =>
      simp only [pollPhase, hp]
      constructor
      · intro e he
        simp only [List.mem_cons] at he
        rcases he with he | he
        · subst he; rfl
        · exact (ih (i + 1)).1 e he
      · simpa using Nat.succ_le_succ (ih (i + 1)).2

/-- Every event the geocoding loop emits is a reverse-geocode call. -/
theorem geoLoop_evs (g : ℚ → ℚ → Option String) (lat lng : ℚ) :
    ∀ (offs : List (ℚ × ℚ)) (acc : List GeoResult),
      ∀ e ∈ (geoLoop g lat lng offs acc).2, isGeoEv e = true := by
  intro offs
  induction offs with
  | nil => intro acc e he; simp [geoLoop] at he
  | cons o rest ih =>
    intro acc e he
    obtain ⟨dLat, dLng⟩ := o
    rcases hg : g (lat + dLat) (lng + dLng) with _ | addr
    · simp only [geoLoop, hg] at he
      split at he
      · simp only [List.mem_singleton] at he
        subst he
        rfl
      · simp only [List.mem_cons] at he
        rcases he with he | he
        · subst he; rfl
        · exact ih _ e he
    · simp only [geoLoop, hg] at he
      split at he
      · simp only [List.mem_singleton] at he
        subst he
        rfl
      · simp only [List.mem_cons] at he
        rcases he with he | he
        · subst he; rfl
        · exact ih _ e he

/-- Every event of the fallback/cache tail is an inherited prefix
event, a reverse-geocode call, or the final cache write. -/
theorem finishPlaces_evs (g : ℚ → ℚ → Option String) (lat lng : ℚ) (key : String)
    (ttl : ℕ) (evs0 : List Ev) (places : List OutPlace) :
    ∀ e ∈ (finishPlaces g lat lng key ttl evs0 places).evs,
      e ∈ evs0 ∨ isGeoEv e = true ∨ e = Ev.cacheSet key ttl := by
  intro e he
  unfold finishPlaces at he
  split at he
  · simp only [List.append_assoc, List.mem_append, List.mem_singleton] at he
    rcases he with he | he | he
    · exact Or.inl he
    · exact Or.inr (Or.inl (geoLoop_evs g lat lng geoOffsets [] e he))
    · exact Or.inr (Or.inr he)
  · simp only [List.mem_append, List.mem_singleton] at he
    rcases he with he | he
    · exact Or.inl he
    · exact Or.inr (Or.inr he)

/-- No part_003 `getNearbyPlaces` run ever attempts the stampede lock. -/
theorem getNearbyPlaces_no_lock (env : PlacesEnv) (lat lng radius : ℚ)
    (gm : Option String) :
    ∀ e ∈ (getNearbyPlaces env lat lng radius gm).evs, isLockEv e = false := by
  intro e he
  have hstep : ∀ (evs0 : List Ev) (places : List OutPlace),
      (∀ x ∈ evs0, isLockEv x = false) →
      e ∈ (finishPlaces env.geocode lat lng
        (makeCacheKey (roundCoord lat) (roundCoord lng) radius gm)
        PLACES_TTL evs0 places).evs → isLockEv e = false := by
    intro evs0 places h0 hmem
    rcases finishPlaces_evs env.geocode lat lng _ PLACES_TTL evs0 places e hmem with
      h | h | h
    · exact h0 e h
    · cases e <;> simp [isGeoEv, isLockEv] at h ⊢
    · subst h; rfl
  unfold getNearbyPlaces at he
  dsimp only at he
  rcases hc : env.cache (makeCacheKey (roundCoord lat) (roundCoord lng) radius gm) with
    _ | v
  · rw [hc] at he
    dsimp only at he
    rcases h1 : env.upstream (roundCoord lat) (roundCoord lng) 100 with _ | res1
    · rw [h1] at he
      refine hstep _ _ ?_ he
      intro x hx
      simp only [List.mem_append, List.mem_cons, List.not_mem_nil, or_false] at hx
      casesm* _ ∨ _
      all_goals (subst_vars; rfl)
    · rw [h1] at he
      dsimp only at he
      split at he
      · rcases h2 : env.upstream (roundCoord lat) (roundCoord lng) 200 with _ | res2
        all_goals rw [h2] at he
        · refine hstep _ _ ?_ he
          intro x hx
          simp only [List.mem_append, List.mem_cons, List.not_mem_nil, or_false] at hx
          casesm* _ ∨ _
          all_goals (subst_vars; rfl)
        · dsimp only at he
          split at he
          all_goals {
            refine hstep _ _ ?_ he
            intro x hx
            simp only [List.mem_append, List.mem_cons, List.not_mem_nil, or_false] at hx
            casesm* _ ∨ _
            all_goals (subst_vars; rfl) }
      · refine hstep _ _ ?_ he
        intro x hx
        simp only [List.mem_append, List.mem_cons, List.not_mem_nil, or_false] at hx
        casesm* _ ∨ _
        all_goals (subst_vars; rfl)
  · rw [hc] at he
    simp only [List.mem_singleton] at he
    subst he
    rfl

/-- C1, counterexample: a part_003 `getNearbyPlaces` query against a
cold cache issues an upstream fetch without any prior (or any) stampede
lock acquisition: its trace contains an upstream nearby-search call and
no lock event at all. -/
theorem C1_stampede_lock_cex :
    ((getNearbyPlaces coldPlacesEnv 0 0 200 none).evs.any isUpstreamEv = true) ∧
    ((getNearbyPlaces coldPlacesEnv 0 0 200 none).evs.all
      (fun e => !isLockEv e) = true) := by
  decide

/-- C1, amended: the stampede-lock protocol holds for
`getDirectionsDistance` only.  On a miss there, the winner acquires the
lock before the sole upstream fetch, then writes and releases; a loser
polls the result cache at most 25 times (= 5000 ms wait bound / 200 ms
interval) and either returns a polled cache value with no upstream call
of its own, or — if every poll misses — proceeds to a redundant fetch.
`getNearbyPlaces` (part_003) performs no lock operation whatsoever, so
on a cold cache each of N concurrent identical queries issues its own
upstream fetch sequence. -/
theorem C1_stampede_lock_amended :
    (∀ (env : DirEnv) (a b c d : ℚ),
      env.cache (makeCacheKeyDirections (roundCoord a) (roundCoord b) (roundCoord c)
        (roundCoord d)) = none →
      env.lockFree = true →
      (getDirectionsDistance env a b c d).evs =
        [Ev.cacheGet (makeCacheKeyDirections (roundCoord a) (roundCoord b) (roundCoord c)
          (roundCoord d)) false,
         Ev.lockAcquire ("lock:" ++ makeCacheKeyDirections (roundCoord a) (roundCoord b)
          (roundCoord c) (roundCoord d)) true,
         Ev.upstreamDirections,
         Ev.cacheSet (makeCacheKeyDirections (roundCoord a) (roundCoord b) (roundCoord c)
          (roundCoord d)) DIR_TTL,
         Ev.lockRelease ("lock:" ++ makeCacheKeyDirections (roundCoord a) (roundCoord b)
          (roundCoord c) (roundCoord d))]) ∧
    (∀ (env : DirEnv) (a b c d : ℚ),
      env.cache (makeCacheKeyDirections (roundCoord a) (roundCoord b) (roundCoord c)
        (roundCoord d)) = none →
      env.lockFree = false →
      (pollPhase env.polls DIR_MAX_POLLS 0).2.length ≤ 25 ∧
      (∀ e ∈ (pollPhase env.polls DIR_MAX_POLLS 0).2, isPollEv e = true) ∧
      (∀ v, (pollPhase env.polls DIR_MAX_POLLS 0).1 = some v →
        (getDirectionsDistance env a b c d).distance_miles = v ∧
        (getDirectionsDistance env a b c d).source = "cache" ∧
        noUpstream (getDirectionsDistance env a b c d).evs) ∧
      ((pollPhase env.polls DIR_MAX_POLLS 0).1 = none →
        (getDirectionsDistance env a b c d).evs =
          [Ev.cacheGet (makeCacheKeyDirections (roundCoord a) (roundCoord b) (roundCoord c)
            (roundCoord d)) false,
           Ev.lockAcquire ("lock:" ++ makeCacheKeyDirections (roundCoord a) (roundCoord b)
            (roundCoord c) (roundCoord d)) false] ++
          (pollPhase env.polls DIR_MAX_POLLS 0).2 ++
          [Ev.upstreamDirections,
           Ev.cacheSet (makeCacheKeyDirections (roundCoord a) (roundCoord b) (roundCoord c)
            (roundCoord d)) DIR_TTL,
           Ev.lockRelease ("lock:" ++ makeCacheKeyDirections (roundCoord a) (roundCoord b)
            (roundCoord c) (roundCoord d))])) ∧
    (∀ (penv : PlacesEnv) (lat lng radius : ℚ) (gm : Option String),
      ∀ e ∈ (getNearbyPlaces penv lat lng radius gm).evs, isLockEv e = false) := by
  refine ⟨?_, ?_, getNearbyPlaces_no_lock⟩
  · intro env a b c d hmiss hlock
    rw [getDirectionsDistance_miss_lock env a b c d hmiss hlock, dirFetch_evs, hlock]
    rfl
  · intro env a b c d hmiss hlock
    have hp := pollPhase_evs env.polls DIR_MAX_POLLS 0
    have hrun := getDirectionsDistance_miss_nolock env a b c d hmiss hlock
    refine ⟨hp.2, hp.1, ?_, ?_⟩
    · intro v hv
      rw [hrun, hv]
      refine ⟨rfl, rfl, ?_⟩
      intro e he
      simp only [List.mem_append, List.mem_cons, List.not_mem_nil, or_false] at he
      rcases he with (he | he) | he
      · subst he; rfl
      · subst he; rfl
      · have := hp.1 e he
        cases e <;> simp [isPollEv, isUpstreamEv] at this ⊢
    · intro hv
      rw [hrun, hv]
      simp [dirFetch_evs]

/-- Witness for C1's amended theorem at concrete environments. -/
theorem C1_stampede_lock_amended_witness :
    (getDirectionsDistance coldGoogleDirEnv 1 2 3 4).evs =
      [Ev.cacheGet (makeCacheKeyDirections (roundCoord 1) (roundCoord 2) (roundCoord 3)
        (roundCoord 4)) false,
       Ev.lockAcquire ("lock:" ++ makeCacheKeyDirections (roundCoord 1) (roundCoord 2)
        (roundCoord 3) (roundCoord 4)) true,
       Ev.upstreamDirections,
       Ev.cacheSet (makeCacheKeyDirections (roundCoord 1) (roundCoord 2) (roundCoord 3)
        (roundCoord 4)) DIR_TTL,
       Ev.lockRelease ("lock:" ++ makeCacheKeyDirections (roundCoord 1) (roundCoord 2)
        (roundCoord 3) (roundCoord 4))] ∧
    (pollPhase (fun _ => none) DIR_MAX_POLLS 0).2.length ≤ 25 :=
  ⟨(C1_stampede_lock_amended.1 coldGoogleDirEnv 1 2 3 4 rfl rfl),
   (C1_stampede_lock_amended.2.1 ⟨fun _ => none, false, fun _ => none, none⟩ 1 2 3 4
      rfl rfl).1⟩

/-! ### Lemmas: staged relaxation (claim C5) -/

/-- The first-revision places.js post-processing of a non-empty raw set
is non-empty (so the planner stops at that stage). -/
theorem processV1_ne_nil (l : List RawPlace) (h : l ≠ []) : processV1 l ≠ [] := by
  unfold processV1
  rw [if_neg (by simpa [List.isEmpty_iff] using h)]
  intro hcontra
  rw [List.map_eq_nil_iff, List.take_eq_nil_iff] at hcontra
  rcases hcontra with hc | hc
  · exact absurd hc (by norm_num)
  · split at hc
    · exact h hc
    · next hne =>
        rw [List.isEmpty_iff] at hne
        exact hne hc

/-- Every upstream event of a first-revision places.js run is the
stage-1 call with the caller's exact radius and type, or the stage-2
call without the type filter at radius `max(radius, 200)`; there is no
third stage. -/
theorem getNearbyPlacesV1_upstream (env : PlacesEnvV1) (lat lng radius : ℚ)
    (ty : String) :
    ∀ e ∈ (getNearbyPlacesV1 env lat lng radius ty).evs, isUpstreamEv e = true →
      e = Ev.upstreamPlaces (roundCoord lat) (roundCoord lng) radius (some ty) ∨
      e = Ev.upstreamPlaces (roundCoord lat) (roundCoord lng) (max radius 200) none := by
  intro e he hup
  have hstep : ∀ (evs0 : List Ev) (places : List OutPlace),
      (∀ x ∈ evs0, isUpstreamEv x = true →
        (x = Ev.upstreamPlaces (roundCoord lat) (roundCoord lng) radius (some ty) ∨
         x = Ev.upstreamPlaces (roundCoord lat) (roundCoord lng) (max radius 200) none)) →
      e ∈ (finishPlaces env.geocode lat lng
        (makeCacheKeyV1 (roundCoord lat) (roundCoord lng) radius ty)
        PLACES_TTL_V1 evs0 places).evs →
      (e = Ev.upstreamPlaces (roundCoord lat) (roundCoord lng) radius (some ty) ∨
       e = Ev.upstreamPlaces (roundCoord lat) (roundCoord lng) (max radius 200) none) := by
    intro evs0 places h0 hmem
    rcases finishPlaces_evs env.geocode lat lng _ PLACES_TTL_V1 evs0 places e hmem with
      h | h | h
    · exact h0 e h hup
    · cases e <;> simp [isGeoEv, isUpstreamEv] at h hup
    · subst h; simp [isUpstreamEv] at hup
  unfold getNearbyPlacesV1 at he
  dsimp only at he
  rcases hc : env.cache (makeCacheKeyV1 (roundCoord lat) (roundCoord lng) radius ty) with
    _ | v
  · rw [hc] at he
    dsimp only at he
    rcases h1 : env.upstream (roundCoord lat) (roundCoord lng) radius (some ty) with
      _ | res1
    · rw [h1] at he
      refine hstep _ _ ?_ he
      intro x hx hxup
      simp only [List.mem_cons, List.not_mem_nil, or_false] at hx
      rcases hx with hx | hx
      · subst hx; simp [isUpstreamEv] at hxup
      · subst hx; exact Or.inl rfl
    · rw [h1] at he
      dsimp only at he
      split at he
      · rcases h2 : env.upstream (roundCoord lat) (roundCoord lng) (max radius 200)
          none with _ | res2
        all_goals rw [h2] at he
        all_goals {
          refine hstep _ _ ?_ he
          intro x hx hxup
          simp only [List.mem_append, List.mem_cons, List.not_mem_nil, or_false] at hx
          rcases hx with (hx | hx) | hx
          · subst hx; simp [isUpstreamEv] at hxup
          · subst hx; exact Or.inl rfl
          · subst hx; exact Or.inr rfl }
      · refine hstep _ _ ?_ he
        intro x hx hxup
        simp only [List.mem_cons, List.not_mem_nil, or_false] at hx
        rcases hx with hx | hx
        · subst hx; simp [isUpstreamEv] at hxup
        · subst hx; exact Or.inl rfl
  · rw [hc] at he
    simp only [List.mem_singleton] at he
    subst he
    simp [isUpstreamEv] at hup

/-- Every upstream event of a part_003 run is the fixed 100 m probe or
the fixed 200 m probe, both without a category filter: the caller's
radius is never sent upstream. -/
theorem getNearbyPlaces_upstream (env : PlacesEnv) (lat lng radius : ℚ)
    (gm : Option String) :
    ∀ e ∈ (getNearbyPlaces env lat lng radius gm).evs, isUpstreamEv e = true →
      e = Ev.upstreamPlaces (roundCoord lat) (roundCoord lng) 100 none ∨
      e = Ev.upstreamPlaces (roundCoord lat) (roundCoord lng) 200 none := by
  intro e he hup
  have hstep : ∀ (evs0 : List Ev) (places : List OutPlace),
      (∀ x ∈ evs0, isUpstreamEv x = true →
        (x = Ev.upstreamPlaces (roundCoord lat) (roundCoord lng) 100 none ∨
         x = Ev.upstreamPlaces (roundCoord lat) (roundCoord lng) 200 none)) →
      e ∈ (finishPlaces env.geocode lat lng
        (makeCacheKey (roundCoord lat) (roundCoord lng) radius gm)
        PLACES_TTL evs0 places).evs →
      (e = Ev.upstreamPlaces (roundCoord lat) (roundCoord lng) 100 none ∨
       e = Ev.upstreamPlaces (roundCoord lat) (roundCoord lng) 200 none) := by
    intro evs0 places h0 hmem
    rcases finishPlaces_evs env.geocode lat lng _ PLACES_TTL evs0 places e hmem with
      h | h | h
    · exact h0 e h hup
    · cases e <;> simp [isGeoEv, isUpstreamEv] at h hup
    · subst h; simp [isUpstreamEv] at hup
  unfold getNearbyPlaces at he
  dsimp only at he
  rcases hc : env.cache (makeCacheKey (roundCoord lat) (roundCoord lng) radius gm) with
    _ | v
  · rw [hc] at he
    dsimp only at he
    rcases h1 : env.upstream (roundCoord lat) (roundCoord lng) 100 with _ | res1
    · rw [h1] at he
      refine hstep _ _ ?_ he
      intro x hx hxup
      simp only [List.mem_cons, List.not_mem_nil, or_false] at hx
      rcases hx with hx | hx
      · subst hx; simp [isUpstreamEv] at hxup
      · subst hx; exact Or.inl rfl
    · rw [h1] at he
      dsimp only at he
      split at he
      · rcases h2 : env.upstream (roundCoord lat) (roundCoord lng) 200 with _ | res2
        all_goals rw [h2] at he
        · refine hstep _ _ ?_ he
          intro x hx hxup
          simp only [List.mem_append, List.mem_cons, List.not_mem_nil, or_false] at hx
          rcases hx with (hx | hx) | hx
          · subst hx; simp [isUpstreamEv] at hxup
          · subst hx; exact Or.inl rfl
          · subst hx; exact Or.inr rfl
        · dsimp only at he
          split at he
          all_goals {
            refine hstep _ _ ?_ he
            intro x hx hxup
            simp only [List.mem_append, List.mem_cons, List.not_mem_nil, or_false] at hx
            rcases hx with (hx | hx) | hx
            · subst hx; simp [isUpstreamEv] at hxup
            · subst hx; exact Or.inl rfl
            · subst hx; exact Or.inr rfl }
      · refine hstep _ _ ?_ he
        intro x hx hxup
        simp only [List.mem_cons, List.not_mem_nil, or_false] at hx
        rcases hx with hx | hx
        · subst hx; simp [isUpstreamEv] at hxup
        · subst hx; exact Or.inl rfl
  · rw [hc] at he
    simp only [List.mem_singleton] at he
    subst he
    simp [isUpstreamEv] at hup

/-- The fallback/cache tail's trace always extends the inherited prefix. -/
theorem finishPlaces_evs_shape (g : ℚ → ℚ → Option String) (lat lng : ℚ) (key : String)
    (ttl : ℕ) (evs0 : List Ev) (places : List OutPlace) :
    ∃ tail, (finishPlaces g lat lng key ttl evs0 places).evs = evs0 ++ tail := by
  unfold finishPlaces
  split
  · exact ⟨(fetchGeocodingFallback g lat lng).2 ++ [Ev.cacheSet key ttl], by simp⟩
  · exact ⟨[Ev.cacheSet key ttl], rfl⟩

/-- C5, counterexample: part_003's planner does not call upstream with
the caller's exact radius: for a cold-cache query with radius 777 the
trace contains no upstream call with radius 777 — the first call uses
the fixed radius 100 (with no category parameter). -/
theorem C5_staged_relaxation_cex :
    (getNearbyPlaces coldPlacesEnv 0 0 777 none).evs.any
        (fun e => match e with
          | Ev.upstreamPlaces _ _ r _ => r == 777
          | _ => false) = false ∧
    Ev.upstreamPlaces 0 0 100 none ∈ (getNearbyPlaces coldPlacesEnv 0 0 777 none).evs := by
  decide

/-- C5, amended: in places.js (first revision) the planner first calls
upstream with the caller's exact radius and category; only if that
stage's raw result set is empty does it retry once with the category
filter removed and the radius raised to `max(radius, 200)`; it stops at
the first non-empty stage and has no third stage (every upstream event
is one of the two stage calls).  With a stub empty for the original
radius/category and non-empty once the category is dropped, it reaches
stage 2 and stops.  In part_003 the planner instead ignores the
caller's radius entirely: every upstream event is the fixed 100 m probe
or the fixed 200 m probe, with no category parameter. -/
theorem C5_staged_relaxation_amended :
    (∀ (env : PlacesEnvV1) (lat lng radius : ℚ) (ty : String),
      env.cache (makeCacheKeyV1 (roundCoord lat) (roundCoord lng) radius ty) = none →
      ∃ rest, (getNearbyPlacesV1 env lat lng radius ty).evs =
        Ev.cacheGet (makeCacheKeyV1 (roundCoord lat) (roundCoord lng) radius ty) false ::
        Ev.upstreamPlaces (roundCoord lat) (roundCoord lng) radius (some ty) :: rest) ∧
    (∀ (env : PlacesEnvV1) (lat lng radius : ℚ) (ty : String),
      ∀ e ∈ (getNearbyPlacesV1 env lat lng radius ty).evs, isUpstreamEv e = true →
        e = Ev.upstreamPlaces (roundCoord lat) (roundCoord lng) radius (some ty) ∨
        e = Ev.upstreamPlaces (roundCoord lat) (roundCoord lng) (max radius 200) none) ∧
    (∀ (env : PlacesEnvV1) (lat lng radius : ℚ) (ty : String) (l : List RawPlace),
      env.cache (makeCacheKeyV1 (roundCoord lat) (roundCoord lng) radius ty) = none →
      env.upstream (roundCoord lat) (roundCoord lng) radius (some ty) = some [] →
      env.upstream (roundCoord lat) (roundCoord lng) (max radius 200) none = some l →
      l ≠ [] →
      (getNearbyPlacesV1 env lat lng radius ty).evs =
        [Ev.cacheGet (makeCacheKeyV1 (roundCoord lat) (roundCoord lng) radius ty) false,
         Ev.upstreamPlaces (roundCoord lat) (roundCoord lng) radius (some ty),
         Ev.upstreamPlaces (roundCoord lat) (roundCoord lng) (max radius 200) none,
         Ev.cacheSet (makeCacheKeyV1 (roundCoord lat) (roundCoord lng) radius ty)
           PLACES_TTL_V1] ∧
      (getNearbyPlacesV1 env lat lng radius ty).result = processV1 l) ∧
    (∀ (env : PlacesEnv) (lat lng radius : ℚ) (gm : Option String),
      ∀ e ∈ (getNearbyPlaces env lat lng radius gm).evs, isUpstreamEv e = true →
        e = Ev.upstreamPlaces (roundCoord lat) (roundCoord lng) 100 none ∨
        e = Ev.upstreamPlaces (roundCoord lat) (roundCoord lng) 200 none) := by
  refine ⟨?_, getNearbyPlacesV1_upstream, ?_, getNearbyPlaces_upstream⟩
  · intro env lat lng radius ty hmiss
    unfold getNearbyPlacesV1
    dsimp only
    rw [hmiss]
    rcases h1 : env.upstream (roundCoord lat) (roundCoord lng) radius (some ty) with
      _ | res1
    · obtain ⟨tail, htail⟩ := finishPlaces_evs_shape env.geocode lat lng _ PLACES_TTL_V1
        [Ev.cacheGet (makeCacheKeyV1 (roundCoord lat) (roundCoord lng) radius ty) false,
         Ev.upstreamPlaces (roundCoord lat) (roundCoord lng) radius (some ty)] []
      exact ⟨tail, htail⟩
    · dsimp only
      split
      · rcases h2 : env.upstream (roundCoord lat) (roundCoord lng) (max radius 200)
          none with _ | res2
        all_goals {
          obtain ⟨tail, htail⟩ := finishPlaces_evs_shape env.geocode lat lng _
            PLACES_TTL_V1
            ([Ev.cacheGet (makeCacheKeyV1 (roundCoord lat) (roundCoord lng) radius ty)
                false,
              Ev.upstreamPlaces (roundCoord lat) (roundCoord lng) radius (some ty)] ++
             [Ev.upstreamPlaces (roundCoord lat) (roundCoord lng) (max radius 200) none])
            _
          rw [htail]
          exact ⟨Ev.upstreamPlaces (roundCoord lat) (roundCoord lng) (max radius 200)
            none :: tail, by simp⟩ }
      · obtain ⟨tail, htail⟩ := finishPlaces_evs_shape env.geocode lat lng _ PLACES_TTL_V1
          [Ev.cacheGet (makeCacheKeyV1 (roundCoord lat) (roundCoord lng) radius ty) false,
           Ev.upstreamPlaces (roundCoord lat) (roundCoord lng) radius (some ty)]
          (processV1 res1)
        exact ⟨tail, htail⟩
  · intro env lat lng radius ty l hmiss h1 h2 hl
    have hne : ¬ (processV1 l).isEmpty = true := by
      rw [List.isEmpty_iff]
      exact processV1_ne_nil l hl
    unfold getNearbyPlacesV1
    dsimp only
    rw [hmiss, h1]
    dsimp only
    split
    · rw [h2]
      dsimp only
      unfold finishPlaces
      rw [if_neg hne]
      exact ⟨rfl, rfl⟩
    · next hfalse => exact absurd rfl hfalse

/-- Witness for C5's amended theorem at concrete environments. -/
theorem C5_staged_relaxation_amended_witness :
    ((getNearbyPlacesV1 v1StageEnv 0 0 150 "restaurant").evs =
      [Ev.cacheGet (makeCacheKeyV1 (roundCoord 0) (roundCoord 0) 150 "restaurant") false,
       Ev.upstreamPlaces (roundCoord 0) (roundCoord 0) 150 (some "restaurant"),
       Ev.upstreamPlaces (roundCoord 0) (roundCoord 0) (max 150 200) none,
       Ev.cacheSet (makeCacheKeyV1 (roundCoord 0) (roundCoord 0) 150 "restaurant")
         PLACES_TTL_V1] ∧
     (getNearbyPlacesV1 v1StageEnv 0 0 150 "restaurant").result =
       processV1 [cafePlace]) :=
  (C5_staged_relaxation_amended.2.2.1 v1StageEnv 0 0 150 "restaurant" [cafePlace]
    rfl rfl rfl (by decide))

/-! ### Lemmas: retailer-only filtering (claim C6) -/

/-- In grocery (retailer-only) mode, a candidate set without a single
allow-listed retailer name filters to empty. -/
theorem filterPlaces_grocery_empty (l : List RawPlace)
    (h : ∀ p ∈ l, isMajorName (lowerStr (p.name.getD "")) = false) :
    filterPlaces true l = [] := by
  unfold filterPlaces
  rw [List.filter_eq_nil_iff]
  intro p hp
  simp only [h p hp]
  split_ifs <;> simp

/-- C6: in retailer-only (grocery) mode, when every raw candidate of
both stages is food-typed and not an allow-listed retailer, both stages
classify as empty and control falls through to the geocoding fallback:
the returned list is built from the reverse-geocode results only, and
the raw candidate sets are never used. -/
theorem C6_retailer_only_filter (env : PlacesEnv) (lat lng radius : ℚ)
    (l1 l2 : List RawPlace)
    (hmiss : env.cache (makeCacheKey (roundCoord lat) (roundCoord lng) radius
      (some "true")) = none)
    (h1 : env.upstream (roundCoord lat) (roundCoord lng) 100 = some l1)
    (h2 : env.upstream (roundCoord lat) (roundCoord lng) 200 = some l2)
    (hfood : ∀ p ∈ l1 ++ l2, foodOnlyNonRetailer p) :
    filterPlaces true l1 = [] ∧
    filterPlaces true l2 = [] ∧
    (getNearbyPlaces env lat lng radius (some "true")).result =
      (fetchGeocodingFallback env.geocode lat lng).1.map
        (fun p => ⟨none, p.name, p.address, lat, lng, none⟩) ∧
    (getNearbyPlaces env lat lng radius (some "true")).evs =
      [Ev.cacheGet (makeCacheKey (roundCoord lat) (roundCoord lng) radius (some "true"))
        false,
       Ev.upstreamPlaces (roundCoord lat) (roundCoord lng) 100 none,
       Ev.upstreamPlaces (roundCoord lat) (roundCoord lng) 200 none] ++
      (fetchGeocodingFallback env.geocode lat lng).2 ++
      [Ev.cacheSet (makeCacheKey (roundCoord lat) (roundCoord lng) radius (some "true"))
        PLACES_TTL] := by
  have hf1 : filterPlaces true l1 = [] := by
    apply filterPlaces_grocery_empty
    intro p hp
    exact (hfood p (List.mem_append_left _ hp)).2
  have hf2 : filterPlaces true l2 = [] := by
    apply filterPlaces_grocery_empty
    intro p hp
    exact (hfood p (List.mem_append_right _ hp)).2
  have hrun : getNearbyPlaces env lat lng radius (some "true") =
      finishPlaces env.geocode lat lng
        (makeCacheKey (roundCoord lat) (roundCoord lng) radius (some "true")) PLACES_TTL
        [Ev.cacheGet (makeCacheKey (roundCoord lat) (roundCoord lng) radius (some "true"))
          false,
         Ev.upstreamPlaces (roundCoord lat) (roundCoord lng) 100 none,
         Ev.upstreamPlaces (roundCoord lat) (roundCoord lng) 200 none] [] := by
    unfold getNearbyPlaces
    dsimp only
    rw [hmiss, h1]
    dsimp only
    have hgm : ((some "true" : Option String) == some "true") = true := rfl
    rw [hgm, hf1]
    split
    · rw [h2]
      dsimp only
      rw [hf2]
      split
      · rfl
      · next hfalse => exact absurd rfl hfalse
    · next hfalse => exact absurd rfl hfalse
  rw [hrun]
  unfold finishPlaces
  split
  · exact ⟨hf1, hf2, rfl, by simp⟩
  · next hfalse => exact absurd rfl hfalse

/-- Witness for C6 at a concrete environment with a single food-typed,
non-retailer candidate. -/
theorem C6_retailer_only_filter_witness :
    filterPlaces true [cafePlace] = [] ∧
    (getNearbyPlaces cafeOnlyEnv 0 0 200 (some "true")).result =
      (fetchGeocodingFallback cafeOnlyEnv.geocode 0 0).1.map
        (fun p => ⟨none, p.name, p.address, 0, 0, none⟩) :=
  ⟨(C6_retailer_only_filter cafeOnlyEnv 0 0 200 [cafePlace] [] rfl (by decide) (by decide)
      (by intro p hp
          simp only [List.append_nil, List.mem_singleton] at hp
          subst hp
          exact ⟨rfl, rfl⟩)).1,
   (C6_retailer_only_filter cafeOnlyEnv 0 0 200 [cafePlace] [] rfl (by decide) (by decide)
      (by intro p hp
          simp only [List.append_nil, List.mem_singleton] at hp
          subst hp
          exact ⟨rfl, rfl⟩)).2.2.1⟩

/-! ### Lemmas: endpoint validation (claim C9) -/

/-- A JS number is falsy exactly when it is 0 or NaN. -/
theorem truthyNum_eq_false (n : JSNum) :
    truthyNum n = false ↔ n = JSNum.num 0 ∨ n = JSNum.nan := by
  cases n with
  | nan => simp [truthyNum]
  | num q => simp [truthyNum]

/-- C9, counterexample: the claim fails for the `/places` handler of
src/index.js, which tests truthiness of the *raw strings*: the
parameter string "0" parses to the number 0 and "abc" parses to NaN,
yet both pass validation and the handler proceeds into the places flow
instead of returning 400. -/
theorem C9_truthiness_cex :
    jsNumber "0" = JSNum.num 0 ∧
    placesEndpointIndex (some "0") (some "1") = HandlerResp.proceed ∧
    jsNumber "abc" = JSNum.nan ∧
    placesEndpointIndex (some "abc") (some "1") = HandlerResp.proceed := by
  decide

/-- C9, amended: handlers that coerce with `Number(...)` before testing
presence return 400 whenever any mandatory coordinate parses to 0 or
NaN: the `/directions` handler (src/index.js first revision and
src/unnamed/part_002) for each of its four parameters, and part_002's
`/places` handler for `lat` and `lng`.  The `/places` handler of
src/index.js instead tests the raw query strings, so any non-empty
string — including "0" and non-numeric strings — passes validation. -/
theorem C9_truthiness_amended :
    (∀ o1 o2 o3 o4 : Option String,
      ((jsNumberOpt o1 = JSNum.num 0 ∨ jsNumberOpt o1 = JSNum.nan) ∨
       (jsNumberOpt o2 = JSNum.num 0 ∨ jsNumberOpt o2 = JSNum.nan) ∨
       (jsNumberOpt o3 = JSNum.num 0 ∨ jsNumberOpt o3 = JSNum.nan) ∨
       (jsNumberOpt o4 = JSNum.num 0 ∨ jsNumberOpt o4 = JSNum.nan)) →
      directionsEndpoint o1 o2 o3 o4 = HandlerResp.bad400) ∧
    (∀ lat lng : Option String,
      ((jsNumberOpt lat = JSNum.num 0 ∨ jsNumberOpt lat = JSNum.nan) ∨
       (jsNumberOpt lng = JSNum.num 0 ∨ jsNumberOpt lng = JSNum.nan)) →
      placesEndpointP2 lat lng = HandlerResp.bad400) ∧
    (∀ lat lng : Option String,
      truthyStr lat = true → truthyStr lng = true →
      placesEndpointIndex lat lng = HandlerResp.proceed) := by
  refine ⟨?_, ?_, ?_⟩
  · intro o1 o2 o3 o4 h
    unfold directionsEndpoint
    rcases h with h | h | h | h <;> rw [← truthyNum_eq_false] at h <;> simp [h]
  · intro lat lng h
    unfold placesEndpointP2
    rcases h with h | h <;> rw [← truthyNum_eq_false] at h <;> simp [h]
  · intro lat lng h1 h2
    unfold placesEndpointIndex
    simp [h1, h2]

/-- Witness for C9's amended theorem at concrete query strings. -/
theorem C9_truthiness_amended_witness :
    directionsEndpoint (some "0") (some "1") (some "2") (some "3") = HandlerResp.bad400 ∧
    placesEndpointP2 (some "xyz") (some "1") = HandlerResp.bad400 ∧
    placesEndpointIndex (some "0") (some "abc") = HandlerResp.proceed :=
  ⟨C9_truthiness_amended.1 (some "0") (some "1") (some "2") (some "3")
      (Or.inl (Or.inl (by decide))),
   C9_truthiness_amended.2.1 (some "xyz") (some "1") (Or.inl (Or.inr (by decide))),
   C9_truthiness_amended.2.2 (some "0") (some "abc") (by decide) (by decide)⟩

/-! ### Lemmas: ranking (claim C7) -/

/-- Ranking a non-empty filtered set yields a non-empty list. -/
theorem rankPlaces_ne_nil (rLat rLng : ℚ) (f : List RawPlace) (hf : f ≠ []) :
    rankPlaces rLat rLng f ≠ [] := by
  unfold rankPlaces
  intro hcontra
  rw [List.map_eq_nil_iff, List.take_eq_nil_iff] at hcontra
  rcases hcontra with hc | hc
  · exact absurd hc (by norm_num)
  · have hp := List.perm_insertionSort pdOrder (f.map (mkPlaceD rLat rLng))
    rw [hc] at hp
    have := hp.length_eq
    simp only [List.length_nil, List.length_map] at this
    exact hf (List.length_eq_zero.mp this.symm)

/-- The ranked list truncates to at most 10 items. -/
theorem rankPlaces_length (rLat rLng : ℚ) (f : List RawPlace) :
    (rankPlaces rLat rLng f).length ≤ 10 := by
  unfold rankPlaces
  simp

/-- Every ranked item is the stripped image of some filtered raw
candidate: it carries the candidate's name (empty when unset), its
vicinity-or-formatted address, its own coordinates and its rating
(`none` when unset), and nothing else — in particular no distance. -/
theorem rankPlaces_mem (rLat rLng : ℚ) (f : List RawPlace) :
    ∀ o ∈ rankPlaces rLat rLng f, ∃ p ∈ f,
      o = ⟨some p.place_id, p.name.getD "",
        p.vicinity.getD (p.formatted_address.getD ""), p.locLat, p.locLng, p.rating⟩ := by
  intro o ho
  unfold rankPlaces at ho
  rw [List.mem_map] at ho
  obtain ⟨pd, hpd, hstrip⟩ := ho
  have hsorted := (List.take_sublist 10 _).mem hpd
  have hperm := List.perm_insertionSort pdOrder (f.map (mkPlaceD rLat rLng))
  have hmem := hperm.mem_iff.mp hsorted
  rw [List.mem_map] at hmem
  obtain ⟨p, hp, hmk⟩ := hmem
  exact ⟨p, hp, by rw [← hstrip, ← hmk]; rfl⟩

/-- The ranked list is pairwise ordered by the comparator's order:
allow-listed retailers first, then ascending haversine distance from
the rounded query origin. -/
theorem rankPlaces_sorted (rLat rLng : ℚ) (f : List RawPlace) :
    List.Pairwise (outOrd rLat rLng) (rankPlaces rLat rLng f) := by
  unfold rankPlaces
  rw [List.pairwise_map]
  have hsorted : List.Pairwise pdOrder
      (List.insertionSort pdOrder (f.map (mkPlaceD rLat rLng))) :=
    List.sorted_insertionSort pdOrder (f.map (mkPlaceD rLat rLng))
  have htake : List.Pairwise pdOrder
      ((List.insertionSort pdOrder (f.map (mkPlaceD rLat rLng))).take 10) :=
    List.Pairwise.sublist (List.take_sublist 10 _) hsorted
  refine htake.imp_of_mem ?_
  intro a b ha hb hab
  have hflag : ∀ x ∈ (List.insertionSort pdOrder (f.map (mkPlaceD rLat rLng))).take 10,
      outMajor (stripD x) = x.isMajorRetailer ∧
      outDist rLat rLng (stripD x) = x.distance := by
    intro x hx
    have hx2 := (List.perm_insertionSort pdOrder (f.map (mkPlaceD rLat rLng))).mem_iff.mp
      ((List.take_sublist 10 _).mem hx)
    rw [List.mem_map] at hx2
    obtain ⟨p, _, hmk⟩ := hx2
    subst hmk
    exact ⟨rfl, rfl⟩
  obtain ⟨hfa, hda⟩ := hflag a ha
  obtain ⟨hfb, hdb⟩ := hflag b hb
  unfold outOrd
  rw [hfa, hfb, hda, hdb]
  exact hab

/-- On a miss with a non-empty stage-1 filtered set, the run returns
the ranked stage-1 set. -/
theorem getNearbyPlaces_stage1_result (env : PlacesEnv) (lat lng radius : ℚ)
    (gm : Option String) (l1 : List RawPlace)
    (hmiss : env.cache (makeCacheKey (roundCoord lat) (roundCoord lng) radius gm) = none)
    (h1 : env.upstream (roundCoord lat) (roundCoord lng) 100 = some l1)
    (hne : filterPlaces (gm == some "true") l1 ≠ []) :
    (getNearbyPlaces env lat lng radius gm).result =
      rankPlaces (roundCoord lat) (roundCoord lng)
        (filterPlaces (gm == some "true") l1) := by
  have hrank := rankPlaces_ne_nil (roundCoord lat) (roundCoord lng) _ hne
  unfold getNearbyPlaces
  dsimp only
  rw [hmiss, h1]
  dsimp only
  split
  · next hempty =>
      rw [List.isEmpty_iff] at hempty
      exact absurd hempty hne
  · unfold finishPlaces
    split
    · next hempty =>
        rw [List.isEmpty_iff] at hempty
        exact absurd hempty hrank
    · rfl

/-- On a miss with an empty stage-1 filtered set and a non-empty
stage-2 filtered set, the run returns the ranked stage-2 set. -/
theorem getNearbyPlaces_stage2_result (env : PlacesEnv) (lat lng radius : ℚ)
    (gm : Option String) (l1 l2 : List RawPlace)
    (hmiss : env.cache (makeCacheKey (roundCoord lat) (roundCoord lng) radius gm) = none)
    (h1 : env.upstream (roundCoord lat) (roundCoord lng) 100 = some l1)
    (hemp : filterPlaces (gm == some "true") l1 = [])
    (h2 : env.upstream (roundCoord lat) (roundCoord lng) 200 = some l2)
    (hne : filterPlaces (gm == some "true") l2 ≠ []) :
    (getNearbyPlaces env lat lng radius gm).result =
      rankPlaces (roundCoord lat) (roundCoord lng)
        (filterPlaces (gm == some "true") l2) := by
  have hrank := rankPlaces_ne_nil (roundCoord lat) (roundCoord lng) _ hne
  unfold getNearbyPlaces
  dsimp only
  rw [hmiss, h1]
  dsimp only
  split
  · rw [h2]
    dsimp only
    split
    · next hempty =>
        rw [List.isEmpty_iff] at hempty
        exact absurd hempty hne
    · unfold finishPlaces
      split
      · next hempty =>
          rw [List.isEmpty_iff] at hempty
          exact absurd hempty hrank
      · rfl
  · next hfalse =>
      rw [List.isEmpty_iff] at hfalse
      exact absurd hemp hfalse

/-- `Math.atan2` of a positive ordinate and a non-negative abscissa is
positive. -/
theorem atan2_pos (y x : ℝ) (hy : 0 < y) (hx : 0 ≤ x) : 0 < atan2 y x := by
  unfold atan2
  split_ifs with h1 h2 h3
  · have := Real.arctan_strictMono (div_pos hy h1)
    rwa [Real.arctan_zero] at this
  all_goals linarith [Real.pi_pos]

/-- The part_003 haversine distance between coincident points is zero. -/
theorem calculateDistance_zero : calculateDistance 0 0 0 0 = 0 := by
  unfold calculateDistance atan2
  norm_num

/-- The part_003 haversine distance from the origin to (0.001, 0) is
strictly positive. -/
theorem calculateDistance_pos_cex : 0 < calculateDistance 0 0 (1/1000) 0 := by
  unfold calculateDistance
  have hpi := Real.pi_pos
  have hs : 0 < Real.sin (Real.pi / 360000) := by
    apply Real.sin_pos_of_pos_of_lt_pi
    · positivity
    · calc Real.pi / 360000 < Real.pi / 1 := by
            apply div_lt_div_of_pos_left hpi <;> norm_num
        _ = Real.pi := by ring
  push_cast
  norm_num
  have heq : (1 / 1000 * Real.pi / 180 / 2 : ℝ) = Real.pi / 360000 := by ring
  rw [heq]
  apply atan2_pos
  · exact Real.sqrt_pos.mpr (mul_pos hs hs)
  · exact Real.sqrt_nonneg _

/-- C7, counterexample: the returned list is not sorted ascending by
distance from the query origin: with a food-typed cafe at the origin
and an allow-listed retailer 0.001 degrees away, the retailer is
returned first although it is strictly farther, because the comparator
puts major retailers before everything else. -/
theorem C7_ranking_cex :
    (getNearbyPlaces rankEnv 0 0 200 none).result =
      [⟨some "p2", "Target", "2 Main St", 1/1000, 0, none⟩,
       ⟨some "p1", "Cafe One", "1 Main St", 0, 0, some 4⟩] ∧
    outDist 0 0 (⟨some "p1", "Cafe One", "1 Main St", 0, 0, some 4⟩ : OutPlace) <
      outDist 0 0 (⟨some "p2", "Target", "2 Main St", 1/1000, 0, none⟩ : OutPlace) := by
  have hnot : ¬ pdOrder (mkPlaceD 0 0 cafePlace) (mkPlaceD 0 0 targetPlace) := by
    intro h
    rcases h with ⟨h1, _⟩ | ⟨h1, _⟩
    · exact absurd h1 (by decide)
    · exact absurd h1 (by decide)
  constructor
  · have hstage := getNearbyPlaces_stage1_result rankEnv 0 0 200 none
      [cafePlace, targetPlace] rfl rfl (by decide)
    rw [hstage, show roundCoord (0:ℚ) = 0 from by decide]
    have hfilter : filterPlaces ((none : Option String) == some "true")
        [cafePlace, targetPlace] = [cafePlace, targetPlace] := by decide
    rw [hfilter]
    unfold rankPlaces
    simp only [List.map_cons, List.map_nil, List.insertionSort, List.orderedInsert,
      hnot, if_false, List.take, List.map]
    rfl
  · show calculateDistance 0 0 0 0 < calculateDistance 0 0 (1/1000) 0
    rw [calculateDistance_zero]
    exact calculateDistance_pos_cex

/-- C7, amended: for every non-empty filtered candidate set, the
part_003 run returns exactly the ranked list: sorted with allow-listed
retailers first and, within the same retailer class, ascending by
haversine distance from the *rounded* query origin; truncated to at
most 10 items; and each item carries the source candidate's name,
address (vicinity, else formatted address, else empty), coordinates and
rating (`none` when unset) — with the ranking distance stripped from
the returned value (the returned record has no distance field). -/
theorem C7_ranking_amended :
    (∀ (rLat rLng : ℚ) (f : List RawPlace),
      (rankPlaces rLat rLng f).length ≤ 10 ∧
      List.Pairwise (outOrd rLat rLng) (rankPlaces rLat rLng f) ∧
      (∀ o ∈ rankPlaces rLat rLng f, ∃ p ∈ f,
        o = ⟨some p.place_id, p.name.getD "",
          p.vicinity.getD (p.formatted_address.getD ""), p.locLat, p.locLng,
          p.rating⟩)) ∧
    (∀ (env : PlacesEnv) (lat lng radius : ℚ) (gm : Option String) (l1 : List RawPlace),
      env.cache (makeCacheKey (roundCoord lat) (roundCoord lng) radius gm) = none →
      env.upstream (roundCoord lat) (roundCoord lng) 100 = some l1 →
      filterPlaces (gm == some "true") l1 ≠ [] →
      (getNearbyPlaces env lat lng radius gm).result =
        rankPlaces (roundCoord lat) (roundCoord lng)
          (filterPlaces (gm == some "true") l1)) ∧
    (∀ (env : PlacesEnv) (lat lng radius : ℚ) (gm : Option String)
      (l1 l2 : List RawPlace),
      env.cache (makeCacheKey (roundCoord lat) (roundCoord lng) radius gm) = none →
      env.upstream (roundCoord lat) (roundCoord lng) 100 = some l1 →
      filterPlaces (gm == some "true") l1 = [] →
      env.upstream (roundCoord lat) (roundCoord lng) 200 = some l2 →
      filterPlaces (gm == some "true") l2 ≠ [] →
      (getNearbyPlaces env lat lng radius gm).result =
        rankPlaces (roundCoord lat) (roundCoord lng)
          (filterPlaces (gm == some "true") l2)) :=
  ⟨fun rLat rLng f =>
    ⟨rankPlaces_length rLat rLng f, rankPlaces_sorted rLat rLng f,
     rankPlaces_mem rLat rLng f⟩,
   getNearbyPlaces_stage1_result, getNearbyPlaces_stage2_result⟩

/-- Witness for C7's amended theorem at a concrete environment. -/
theorem C7_ranking_amended_witness :
    (rankPlaces 0 0 [cafePlace]).length ≤ 10 ∧
    (getNearbyPlaces rankEnv 0 0 200 none).result =
      rankPlaces (roundCoord 0) (roundCoord 0)
        (filterPlaces ((none : Option String) == some "true")
          [cafePlace, targetPlace]) :=
  ⟨(C7_ranking_amended.1 0 0 [cafePlace]).1,
   C7_ranking_amended.2.1 rankEnv 0 0 200 none [cafePlace, targetPlace] rfl rfl
     (by decide)⟩

/-! ### Lemmas: decimal printing is exact and injective (claim C3) -/

/-- `charDig` inverts `digChar` on decimal digits. -/
theorem charDig_digChar : ∀ d < 10, charDig (digChar d) = d := by decide

/-- No decimal digit character is a separator, sign or dot. -/
theorem digChar_ne : ∀ d < 10,
    digChar d ≠ ':' ∧ digChar d ≠ '-' ∧ digChar d ≠ '.' := by decide

/-- Horner evaluation of a digit string from an arbitrary accumulator. -/
theorem valNat_foldl (l : List Char) : ∀ a : ℕ,
    l.foldl (fun a c => 10 * a + charDig c) a = a * 10 ^ l.length + valNat l := by
  induction l with
  | nil => intro a; simp [valNat]
  | cons c t ih =>
    intro a
    have h1 := ih (10 * a + charDig c)
    have h2 := ih (charDig c)
    simp only [List.foldl_cons, List.length_cons]
    rw [h1]
    have hv : valNat (c :: t) = charDig c * 10 ^ t.length + valNat t := by
      simp only [valNat, List.foldl_cons]
      simpa using h2
    rw [hv]
    ring

/-- Value of a concatenation of digit strings. -/
theorem valNat_append (l1 l2 : List Char) :
    valNat (l1 ++ l2) = valNat l1 * 10 ^ l2.length + valNat l2 := by
  simp only [valNat, List.foldl_append]
  simpa using valNat_foldl l2 (valNat l1)

/-- The fueled digit printer is exact whenever the fuel suffices. -/
theorem valNat_digsAux : ∀ fuel n, n ≤ fuel → valNat (digsAux fuel n) = n := by
  intro fuel
  induction fuel with
  | zero =>
    intro n hn
    have hz : n = 0 := by omega
    subst hz
    simp [digsAux, valNat]
  | succ m ih =>
    intro n hn
    match n with
    | 0 => simp [digsAux, valNat]
    | k + 1 =>
      have hdiv : (k + 1) / 10 ≤ m := by
        have := Nat.div_lt_self (Nat.succ_pos k) (by norm_num : 1 < 10)
        omega
      have hlt : (k + 1) % 10 < 10 := Nat.mod_lt _ (by norm_num)
      have hsingle : valNat [digChar ((k + 1) % 10)] = (k + 1) % 10 := by
        simp [valNat, charDig_digChar _ hlt]
      simp only [digsAux]
      rw [valNat_append, ih _ hdiv, hsingle]
      simp only [List.length_singleton, pow_one]
      omega

/-- Printing a natural number and reading its digits back is the
identity. -/
theorem valNat_natDigs (n : ℕ) : valNat (natDigs n) = n :=
  valNat_digsAux n n le_rfl

/-- Also with the zero special case of `natStr`. -/
theorem valNat_natStr (n : ℕ) : valNat (natStr n) = n := by
  unfold natStr
  split
  · next h => subst h; rfl
  · exact valNat_natDigs n

/-- The printing of natural numbers is injective. -/
theorem natStr_inj {m n : ℕ} (h : natStr m = natStr n) : m = n := by
  have := congrArg valNat h
  rwa [valNat_natStr, valNat_natStr] at this

/-- Every character the fueled printer emits is a decimal digit. -/
theorem digsAux_chars : ∀ fuel n, ∀ c ∈ digsAux fuel n, ∃ d, d < 10 ∧ c = digChar d := by
  intro fuel
  induction fuel with
  | zero =>
    intro n c hc
    cases n <;> simp [digsAux] at hc
  | succ m ih =>
    intro n c hc
    match n with
    | 0 => simp [digsAux] at hc
    | k + 1 =>
      simp only [digsAux, List.mem_append, List.mem_singleton] at hc
      rcases hc with hc | hc
      · exact ih _ c hc
      · exact ⟨(k + 1) % 10, Nat.mod_lt _ (by norm_num), hc⟩

/-- Every character of a printed natural number is a decimal digit. -/
theorem natStr_chars (n : ℕ) : ∀ c ∈ natStr n, ∃ d, d < 10 ∧ c = digChar d := by
  intro c hc
  unfold natStr at hc
  split at hc
  · simp only [List.mem_singleton] at hc
    exact ⟨0, by norm_num, hc⟩
  · exact digsAux_chars n n c hc

/-- A printed natural number is never the empty string. -/
theorem natStr_ne_nil (n : ℕ) : natStr n ≠ [] := by
  unfold natStr
  split
  · simp
  · next h =>
    intro hcontra
    have := valNat_natDigs n
    rw [hcontra] at this
    exact h (this.symm.trans rfl)

/-- The printer emits at most `k` digits for a number below `10^k`. -/
theorem digsAux_len : ∀ fuel n k, n < 10 ^ k → (digsAux fuel n).length ≤ k := by
  intro fuel
  induction fuel with
  | zero =>
    intro n k _
    cases n <;> simp [digsAux]
  | succ m ih =>
    intro n k hk
    match n with
    | 0 => simp [digsAux]
    | j + 1 =>
      match k with
      | 0 => omega
      | i + 1 =>
        have hdiv : (j + 1) / 10 < 10 ^ i := by
          rw [Nat.div_lt_iff_lt_mul (by norm_num : (0:ℕ) < 10)]
          calc j + 1 < 10 ^ (i + 1) := hk
            _ = 10 ^ i * 10 := by ring
        have := ih ((j + 1) / 10) i hdiv
        simp only [digsAux, List.length_append, List.length_singleton]
        omega

/-- The zero-padded fraction block has exactly `k` characters. -/
theorem fracChars_len (k m : ℕ) (h : m < 10 ^ k) : (fracChars k m).length = k := by
  have := digsAux_len m m k h
  unfold fracChars natDigs
  simp only [List.length_append, List.length_replicate]
  omega

/-- Leading zeros do not change the value of a digit block. -/
theorem valNat_replicate_zero (z : ℕ) : valNat (List.replicate z '0') = 0 := by
  induction z with
  | zero => rfl
  | succ n ih =>
    simp only [List.replicate_succ]
    have : valNat ('0' :: List.replicate n '0') =
        charDig '0' * 10 ^ n + valNat (List.replicate n '0') := by
      have := valNat_append ['0'] (List.replicate n '0')
      simpa [valNat, List.length_replicate] using this
    simp [this, ih, charDig]

/-- The zero-padded fraction block reads back to its value. -/
theorem valNat_fracChars (k m : ℕ) : valNat (fracChars k m) = m := by
  unfold fracChars
  rw [valNat_append, valNat_replicate_zero, valNat_natDigs]
  simp

/-- Splitting two concatenations at a separator that occurs in neither
left part. -/
theorem append_sep_inj (c : Char) : ∀ (a1 a2 b1 b2 : List Char), c ∉ a1 → c ∉ a2 →
    a1 ++ c :: b1 = a2 ++ c :: b2 → a1 = a2 ∧ b1 = b2 := by
  intro a1
  induction a1 with
  | nil =>
    intro a2 b1 b2 _ h2 heq
    cases a2 with
    | nil => simpa using heq
    | cons y s =>
      simp only [List.nil_append, List.cons_append, List.cons.injEq] at heq
      exact absurd (List.mem_cons.mpr (Or.inl heq.1)) h2
  | cons x t ih =>
    intro a2 b1 b2 h1 h2 heq
    cases a2 with
    | nil =>
      simp only [List.nil_append, List.cons_append, List.cons.injEq] at heq
      exact absurd (List.mem_cons.mpr (Or.inl heq.1.symm)) h1
    | cons y s =>
      simp only [List.cons_append, List.cons.injEq] at heq
      obtain ⟨hxy, hrest⟩ := heq
      have ht := ih s b1 b2 (fun hc => h1 (List.mem_cons_of_mem x hc))
        (fun hc => h2 (hxy ▸ List.mem_cons_of_mem y hc)) hrest
      exact ⟨by rw [hxy, ht.1], ht.2⟩

/-- Printed digits are never a separator, sign or dot. -/
theorem natStr_sep (n : ℕ) : ∀ c ∈ natStr n, c ≠ ':' ∧ c ≠ '-' ∧ c ≠ '.' := by
  intro c hc
  obtain ⟨d, hd, hcd⟩ := natStr_chars n c hc
  subst hcd
  exact digChar_ne d hd

/-- For a denominator dividing 1000, `fracExp` picks enough fractional
digits. -/
theorem fracExp_dvd (d : ℕ) (h : d ∣ 1000) : d ∣ 10 ^ fracExp d := by
  unfold fracExp
  split_ifs with h1 h2 h3
  · simpa using h1
  · simpa using h2
  · simpa using h3
  · simpa using h

/-- A zero fractional width means the value is an integer. -/
theorem fracExp_zero_den (d : ℕ) (h : fracExp d = 0) : d = 1 := by
  unfold fracExp at h
  split_ifs at h with h1 h2 h3
  exact Nat.dvd_one.mp h1

/-- Explicit character-list form of `ratStr` on the denominators that
reach the key builders. -/
theorem ratStr_data (q : ℚ) (hq : q.den ∣ 1000) :
    (ratStr q).data =
      (if q.num < 0 then ['-'] else []) ++
      natStr (q.num.natAbs * (10 ^ fracExp q.den / q.den) / 10 ^ fracExp q.den) ++
      (if fracExp q.den = 0 then []
       else '.' :: fracChars (fracExp q.den)
         (q.num.natAbs * (10 ^ fracExp q.den / q.den) % 10 ^ fracExp q.den)) := by
  unfold ratStr
  rw [if_pos (fracExp_dvd q.den hq)]
  by_cases hk : fracExp q.den = 0
  · have hden : q.den = 1 := fracExp_zero_den q.den hk
    simp [hk, hden, show fracExp 1 = 0 from by decide]
  · simp [hk]

/-- Value of a rational in terms of its printed magnitude. -/
theorem ratStr_val (q : ℚ) (hq : q.den ∣ 1000) :
    q = (if q.num < 0 then (-1 : ℚ) else 1) *
      ((q.num.natAbs * (10 ^ fracExp q.den / q.den) : ℕ) : ℚ) /
        (10 : ℚ) ^ fracExp q.den := by
  have hden : (q.den : ℚ) ≠ 0 := by
    exact_mod_cast q.den_nz
  have hpow : ((10 : ℚ) ^ fracExp q.den) ≠ 0 := by positivity
  have hN : (q.num.natAbs * (10 ^ fracExp q.den / q.den)) * q.den =
      q.num.natAbs * 10 ^ fracExp q.den := by
    rw [mul_assoc, Nat.div_mul_cancel (fracExp_dvd q.den hq)]
  have hval : ((q.num.natAbs * (10 ^ fracExp q.den / q.den) : ℕ) : ℚ) /
      (10 : ℚ) ^ fracExp q.den = (q.num.natAbs : ℚ) / (q.den : ℚ) := by
    rw [div_eq_div_iff hpow hden]
    exact_mod_cast congrArg (fun n : ℕ => (n : ℚ)) hN
  rw [mul_div_assoc, hval]
  conv_lhs => rw [← Rat.num_div_den q]
  rcases lt_or_le q.num 0 with hneg | hpos
  · rw [if_pos hneg]
    have habs2 : (q.num.natAbs : ℚ) = -(q.num : ℚ) := by
      rw [Int.cast_natAbs, abs_of_neg hneg]
      push_cast
      ring
    rw [habs2]
    ring
  · rw [if_neg (not_lt.mpr hpos)]
    have habs2 : (q.num.natAbs : ℚ) = (q.num : ℚ) := by
      rw [Int.cast_natAbs, abs_of_nonneg hpos]
    rw [habs2]
    ring

/-- Separating an optional leading minus sign from a digit-headed tail. -/
theorem sign_append_inj (p1 p2 : Prop) [Decidable p1] [Decidable p2]
    (t1 t2 : List Char)
    (hne1 : t1 ≠ []) (hne2 : t2 ≠ [])
    (hh1 : ∀ c r, t1 = c :: r → c ≠ '-')
    (hh2 : ∀ c r, t2 = c :: r → c ≠ '-')
    (heq : (if p1 then ['-'] else []) ++ t1 = (if p2 then ['-'] else []) ++ t2) :
    (p1 ↔ p2) ∧ t1 = t2 := by
  by_cases hp1 : p1 <;> by_cases hp2 : p2
  · simp only [if_pos hp1, if_pos hp2, List.singleton_append, List.cons.injEq] at heq
    exact ⟨iff_of_true hp1 hp2, heq.2⟩
  · simp only [if_pos hp1, if_neg hp2, List.singleton_append, List.nil_append] at heq
    obtain ⟨c, r, hc⟩ := List.exists_cons_of_ne_nil hne2
    rw [hc] at heq
    simp only [List.cons.injEq] at heq
    exact absurd heq.1.symm (hh2 c r hc)
  · simp only [if_neg hp1, if_pos hp2, List.singleton_append, List.nil_append] at heq
    obtain ⟨c, r, hc⟩ := List.exists_cons_of_ne_nil hne1
    rw [hc] at heq
    simp only [List.cons.injEq] at heq
    exact absurd heq.1 (hh1 c r hc)
  · simp only [if_neg hp1, if_neg hp2, List.nil_append] at heq
    exact ⟨iff_of_false hp1 hp2, heq⟩

/-- A printed natural number followed by anything is never empty. -/
theorem natStr_append_ne_nil (n : ℕ) (l : List Char) : natStr n ++ l ≠ [] := by
  intro h
  exact natStr_ne_nil n (List.append_eq_nil.mp h).1

/-- The head of a printed natural number followed by anything is a digit,
hence neither a separator nor a sign nor a dot. -/
theorem natStr_append_head (n : ℕ) (l : List Char) (c : Char) (r : List Char)
    (h : natStr n ++ l = c :: r) : c ≠ ':' ∧ c ≠ '-' ∧ c ≠ '.' := by
  obtain ⟨c0, r0, hc0⟩ := List.exists_cons_of_ne_nil (natStr_ne_nil n)
  rw [hc0, List.cons_append] at h
  simp only [List.cons.injEq] at h
  have hmem : c0 ∈ natStr n := by
    rw [hc0]
    exact List.mem_cons_self c0 r0
  exact h.1 ▸ natStr_sep n c0 hmem

/-- Two rationals with equal sign, fractional width and printed magnitude
are equal (reconstruction step of the injectivity of `ratStr`). -/
theorem ratStr_val_inj (q1 q2 : ℚ) (h1 : q1.den ∣ 1000) (h2 : q2.den ∣ 1000)
    (hsign : q1.num < 0 ↔ q2.num < 0)
    (hk : fracExp q1.den = fracExp q2.den)
    (hN : q1.num.natAbs * (10 ^ fracExp q1.den / q1.den) =
          q2.num.natAbs * (10 ^ fracExp q2.den / q2.den)) : q1 = q2 := by
  rw [ratStr_val q1 h1, ratStr_val q2 h2, hN, hk]
  by_cases hneg : q1.num < 0
  · rw [if_pos hneg, if_pos (hsign.mp hneg)]
  · rw [if_neg hneg, if_neg (fun hh => hneg (hsign.mpr hh))]

/-- `ratStr` is injective on the denominators that reach the key
builders: two rationals with denominator dividing 1000 printing to the
same characters are equal. -/
theorem ratStr_inj (q1 q2 : ℚ) (h1 : q1.den ∣ 1000) (h2 : q2.den ∣ 1000)
    (heq : (ratStr q1).data = (ratStr q2).data) : q1 = q2 := by
  rw [ratStr_data q1 h1, ratStr_data q2 h2] at heq
  simp only [List.append_assoc] at heq
  obtain ⟨hsign, htail⟩ := sign_append_inj (q1.num < 0) (q2.num < 0) _ _
    (natStr_append_ne_nil _ _) (natStr_append_ne_nil _ _)
    (fun c r hc => (natStr_append_head _ _ c r hc).2.1)
    (fun c r hc => (natStr_append_head _ _ c r hc).2.1) heq
  by_cases hk1 : fracExp q1.den = 0 <;> by_cases hk2 : fracExp q2.den = 0
  · rw [if_pos hk1, if_pos hk2, List.append_nil, List.append_nil] at htail
    have hN : q1.num.natAbs * (10 ^ fracExp q1.den / q1.den) =
        q2.num.natAbs * (10 ^ fracExp q2.den / q2.den) := by
      have hv := natStr_inj htail
      rw [hk1, hk2] at hv ⊢
      simpa using hv
    exact ratStr_val_inj q1 q2 h1 h2 hsign (by rw [hk1, hk2]) hN
  · rw [if_pos hk1, if_neg hk2, List.append_nil] at htail
    have hdot : '.' ∈ natStr (q1.num.natAbs * (10 ^ fracExp q1.den / q1.den) /
        10 ^ fracExp q1.den) := by
      rw [htail]
      exact List.mem_append_right _ (List.mem_cons_self _ _)
    exact absurd rfl (natStr_sep _ '.' hdot).2.2
  · rw [if_neg hk1, if_pos hk2, List.append_nil] at htail
    have hdot : '.' ∈ natStr (q2.num.natAbs * (10 ^ fracExp q2.den / q2.den) /
        10 ^ fracExp q2.den) := by
      rw [← htail]
      exact List.mem_append_right _ (List.mem_cons_self _ _)
    exact absurd rfl (natStr_sep _ '.' hdot).2.2
  · rw [if_neg hk1, if_neg hk2] at htail
    have hnd1 : '.' ∉ natStr (q1.num.natAbs * (10 ^ fracExp q1.den / q1.den) /
        10 ^ fracExp q1.den) := fun hc => (natStr_sep _ '.' hc).2.2 rfl
    have hnd2 : '.' ∉ natStr (q2.num.natAbs * (10 ^ fracExp q2.den / q2.den) /
        10 ^ fracExp q2.den) := fun hc => (natStr_sep _ '.' hc).2.2 rfl
    obtain ⟨hint, hfrac⟩ := append_sep_inj '.' _ _ _ _ hnd1 hnd2 htail
    have hI := natStr_inj hint
    have hm1 : q1.num.natAbs * (10 ^ fracExp q1.den / q1.den) % 10 ^ fracExp q1.den <
        10 ^ fracExp q1.den := Nat.mod_lt _ (pow_pos (by norm_num) _)
    have hm2 : q2.num.natAbs * (10 ^ fracExp q2.den / q2.den) % 10 ^ fracExp q2.den <
        10 ^ fracExp q2.den := Nat.mod_lt _ (pow_pos (by norm_num) _)
    have hk : fracExp q1.den = fracExp q2.den := by
      have hl1 := fracChars_len (fracExp q1.den) _ hm1
      have hl2 := fracChars_len (fracExp q2.den) _ hm2
      rw [← hl1, ← hl2, hfrac]
    have hm : q1.num.natAbs * (10 ^ fracExp q1.den / q1.den) % 10 ^ fracExp q1.den =
        q2.num.natAbs * (10 ^ fracExp q2.den / q2.den) % 10 ^ fracExp q2.den := by
      have hv := valNat_fracChars (fracExp q1.den)
        (q1.num.natAbs * (10 ^ fracExp q1.den / q1.den) % 10 ^ fracExp q1.den)
      rw [hfrac, valNat_fracChars] at hv
      exact hv.symm
    have hN : q1.num.natAbs * (10 ^ fracExp q1.den / q1.den) =
        q2.num.natAbs * (10 ^ fracExp q2.den / q2.den) := by
      calc q1.num.natAbs * (10 ^ fracExp q1.den / q1.den)
          = 10 ^ fracExp q1.den *
              (q1.num.natAbs * (10 ^ fracExp q1.den / q1.den) / 10 ^ fracExp q1.den) +
              q1.num.natAbs * (10 ^ fracExp q1.den / q1.den) % 10 ^ fracExp q1.den :=
            (Nat.div_add_mod _ _).symm
        _ = 10 ^ fracExp q2.den *
              (q2.num.natAbs * (10 ^ fracExp q2.den / q2.den) / 10 ^ fracExp q2.den) +
              q2.num.natAbs * (10 ^ fracExp q2.den / q2.den) % 10 ^ fracExp q2.den := by
            rw [hI, hm, hk]
        _ = q2.num.natAbs * (10 ^ fracExp q2.den / q2.den) := Nat.div_add_mod _ _
    exact ratStr_val_inj q1 q2 h1 h2 hsign hk hN

/-- Every character of the zero-padded fraction block is a decimal digit. -/
theorem fracChars_chars (k m : ℕ) : ∀ c ∈ fracChars k m, ∃ d, d < 10 ∧ c = digChar d := by
  intro c hc
  unfold fracChars natDigs at hc
  rcases List.mem_append.mp hc with h | h
  · exact ⟨0, by norm_num, by rw [List.eq_of_mem_replicate h]; rfl⟩
  · exact digsAux_chars m m c h

/-- On the denominators that reach the key builders, a printed rational
never contains the key separator character. -/
theorem ratStr_no_colon (q : ℚ) (hq : q.den ∣ 1000) : ':' ∉ (ratStr q).data := by
  rw [ratStr_data q hq]
  intro hmem
  rcases List.mem_append.mp hmem with h | h
  · rcases List.mem_append.mp h with h2 | h2
    · by_cases hneg : q.num < 0
      · rw [if_pos hneg] at h2
        exact absurd (List.mem_singleton.mp h2) (by decide)
      · rw [if_neg hneg] at h2
        exact absurd h2 (List.not_mem_nil ':')
    · exact (natStr_sep _ ':' h2).1 rfl
  · by_cases hk : fracExp q.den = 0
    · rw [if_pos hk] at h
      exact absurd h (List.not_mem_nil ':')
    · rw [if_neg hk] at h
      rcases List.mem_cons.mp h with h2 | h2
      · exact absurd h2 (by decide)
      · obtain ⟨d, hd, hcd⟩ := fracChars_chars _ _ ':' h2
        exact (digChar_ne d hd).1 hcd.symm

/-- The output of `roundCoord` always has a denominator dividing 1000,
so its printed form is the exact terminating decimal. -/
theorem roundCoord_den (v : ℚ) : (roundCoord v).den ∣ 1000 := by
  unfold roundCoord
  have h : ((⌊v * 1000⌋ : ℚ) / 1000) = Rat.divInt ⌊v * 1000⌋ 1000 := by
    rw [Rat.divInt_eq_div]
    norm_num
  rw [h]
  have hd := Rat.den_dvd ⌊v * 1000⌋ 1000
  exact_mod_cast hd

/-- Equal rounded coordinates come from the same 0.001-degree grid cell. -/
theorem roundCoord_floor_inj (a b : ℚ) (h : roundCoord a = roundCoord b) :
    ⌊a * 1000⌋ = ⌊b * 1000⌋ := by
  unfold roundCoord at h
  field_simp at h
  exact_mod_cast h

/-- Equal part_003 cache keys force equal latitude and longitude
components, whatever the radius and mode segments are. -/
theorem makeCacheKey_coords_inj (lat1 lng1 radius1 lat2 lng2 radius2 : ℚ)
    (g1 g2 : Option String)
    (d1 : lat1.den ∣ 1000) (d2 : lng1.den ∣ 1000)
    (d3 : lat2.den ∣ 1000) (d4 : lng2.den ∣ 1000)
    (hkey : makeCacheKey lat1 lng1 radius1 g1 = makeCacheKey lat2 lng2 radius2 g2) :
    lat1 = lat2 ∧ lng1 = lng2 := by
  have hd := congrArg String.data hkey
  unfold makeCacheKey at hd
  simp only [String.data_append, List.append_assoc,
    show (":" : String).data = [':'] from rfl, List.singleton_append] at hd
  have h0 := List.append_cancel_left hd
  obtain ⟨hlat, hrest⟩ := append_sep_inj ':' _ _ _ _ (ratStr_no_colon lat1 d1)
    (ratStr_no_colon lat2 d3) h0
  obtain ⟨hlng, -⟩ := append_sep_inj ':' _ _ _ _ (ratStr_no_colon lng1 d2)
    (ratStr_no_colon lng2 d4) hrest
  exact ⟨ratStr_inj lat1 lat2 d1 d3 hlat, ratStr_inj lng1 lng2 d2 d4 hlng⟩

/-- C3: two raw coordinate pairs in the same 0.001-degree grid cell (same
floor at three decimals in both axes) give identical part_003 cache keys
for the same remaining parameters, and coordinate pairs in distinct grid
cells give distinct keys. -/
theorem C3_cache_key_stability (lat1 lng1 lat2 lng2 radius : ℚ) (g : Option String) :
    (⌊lat1 * 1000⌋ = ⌊lat2 * 1000⌋ ∧ ⌊lng1 * 1000⌋ = ⌊lng2 * 1000⌋ →
      makeCacheKey (roundCoord lat1) (roundCoord lng1) radius g =
        makeCacheKey (roundCoord lat2) (roundCoord lng2) radius g) ∧
    (⌊lat1 * 1000⌋ ≠ ⌊lat2 * 1000⌋ ∨ ⌊lng1 * 1000⌋ ≠ ⌊lng2 * 1000⌋ →
      makeCacheKey (roundCoord lat1) (roundCoord lng1) radius g ≠
        makeCacheKey (roundCoord lat2) (roundCoord lng2) radius g) := by
  constructor
  · rintro ⟨hla, hln⟩
    unfold roundCoord
    rw [hla, hln]
  · intro hne hkey
    have hc := makeCacheKey_coords_inj _ _ _ _ _ _ _ _
      (roundCoord_den lat1) (roundCoord_den lng1)
      (roundCoord_den lat2) (roundCoord_den lng2) hkey
    rcases hne with h | h
    · exact h (roundCoord_floor_inj _ _ hc.1)
    · exact h (roundCoord_floor_inj _ _ hc.2)

/-- Witness for C3: (33.7491, -84.3881) and (33.7495, -84.3889) share the
grid cell and get the same key; raising the latitude by one degree moves
to a distinct cell and changes the key. -/
theorem C3_cache_key_stability_witness :
    (⌊(337491 / 10000 : ℚ) * 1000⌋ = ⌊(337495 / 10000 : ℚ) * 1000⌋ ∧
      ⌊(-843881 / 10000 : ℚ) * 1000⌋ = ⌊(-843889 / 10000 : ℚ) * 1000⌋) ∧
    makeCacheKey (roundCoord (337491 / 10000)) (roundCoord (-843881 / 10000)) 200 none =
      makeCacheKey (roundCoord (337495 / 10000)) (roundCoord (-843889 / 10000)) 200 none ∧
    ⌊(337491 / 10000 : ℚ) * 1000⌋ ≠ ⌊(347491 / 10000 : ℚ) * 1000⌋ ∧
    makeCacheKey (roundCoord (337491 / 10000)) (roundCoord (-843881 / 10000)) 200 none ≠
      makeCacheKey (roundCoord (347491 / 10000)) (roundCoord (-843881 / 10000)) 200 none := by
  refine ⟨⟨by decide, by decide⟩, ?_, by decide, ?_⟩
  · exact (C3_cache_key_stability (337491 / 10000) (-843881 / 10000)
      (337495 / 10000) (-843889 / 10000) 200 none).1 ⟨by decide, by decide⟩
  · exact (C3_cache_key_stability (337491 / 10000) (-843881 / 10000)
      (347491 / 10000) (-843881 / 10000) 200 none).2 (Or.inl (by decide))
